import Mathlib

/-!
Verification development for the worker-side runtime of the ray-legacy
repository.  We shallowly embed the two source modules

  * `lib/python/ray/serialization.py`  (namespace `RaySer` below), and
  * `lib/orchpy/orchpy/worker.py`      (namespace `Orch` below)

as executable Lean definitions over a model `PyVal` of Python runtime
values, and prove or refute the specification claims about them.
-/

namespace RayLegacy

/-- Model of a Python 2 float: either a finite value written as
`m * 10 ^ e` (a canonical decimal form standing in for the IEEE value and
its shortest `repr`), or one of the non-finite values whose `repr`s are
the bare names `inf`, `-inf` and `nan`. -/
inductive PyFloat where
  | finite (m : Int) (e : Int)
  | inf
  | ninf
  | nan
deriving DecidableEq, Repr

/-- Model of a Python 2 runtime value, covering the shapes the two source
modules dispatch on: primitives, containers, object-store references,
class instances carrying a `__dict__` attribute map, namedtuples,
numpy `ndarray`s (kept as their nested-list representation plus a dtype
string), scipy `csr_matrix`/`coo_matrix`, and opaque pickle blobs. -/
inductive PyVal where
  | none
  | pybool (b : Bool)
  | int (n : Int)
  | long (n : Int)
  | float (f : PyFloat)
  | str (s : String)
  | unicode (s : String)
  | list (xs : List PyVal)
  | tuple (xs : List PyVal)
  | dict (entries : List (PyVal × PyVal))
  | objref (id : Nat)
  | instObj (cid : String) (attrs : List (PyVal × PyVal))
  | namedTup (cid : String) (fields : List (PyVal × PyVal))
  | ndarr (data : PyVal) (dtype : String)
  | csrM (shape data indices indptr : PyVal)
  | cooM (shape row col data : PyVal)
  | pickled (v : PyVal)

mutual

/-- Structural equality on model values, playing the role of Python `==`
(used in particular by dictionary-key lookup). -/
def pyEqb : PyVal → PyVal → Bool
  | .none, b => match b with | .none => true | _ => false
  | .pybool x, b => match b with | .pybool y => decide (x = y) | _ => false
  | .int n, b => match b with | .int m => decide (n = m) | _ => false
  | .long n, b => match b with | .long m => decide (n = m) | _ => false
  | .float f, b => match b with | .float g => decide (f = g) | _ => false
  | .str s, b => match b with | .str t => decide (s = t) | _ => false
  | .unicode s, b => match b with | .unicode t => decide (s = t) | _ => false
  | .list xs, b => match b with | .list ys => pyEqbL xs ys | _ => false
  | .tuple xs, b => match b with | .tuple ys => pyEqbL xs ys | _ => false
  | .dict d, b => match b with | .dict e => pyEqbP d e | _ => false
  | .objref i, b => match b with | .objref j => decide (i = j) | _ => false
  | .instObj c a, b =>
      match b with
      | .instObj c' a' => decide (c = c') && pyEqbP a a'
      | _ => false
  | .namedTup c f, b =>
      match b with
      | .namedTup c' f' => decide (c = c') && pyEqbP f f'
      | _ => false
  | .ndarr d t, b =>
      match b with
      | .ndarr d' t' => pyEqb d d' && decide (t = t')
      | _ => false
  | .csrM s d i p, b =>
      match b with
      | .csrM s' d' i' p' => pyEqb s s' && pyEqb d d' && pyEqb i i' && pyEqb p p'
      | _ => false
  | .cooM s r c d, b =>
      match b with
      | .cooM s' r' c' d' => pyEqb s s' && pyEqb r r' && pyEqb c c' && pyEqb d d'
      | _ => false
  | .pickled v, b => match b with | .pickled w => pyEqb v w | _ => false
termination_by a _ => sizeOf a

/-- Elementwise `pyEqb` on lists of values. -/
def pyEqbL : List PyVal → List PyVal → Bool
  | [], [] => true
  | x :: xs, y :: ys => pyEqb x y && pyEqbL xs ys
  | _, _ => false
termination_by xs _ => sizeOf xs

/-- Elementwise `pyEqb` on key/value pair lists. -/
def pyEqbP : List (PyVal × PyVal) → List (PyVal × PyVal) → Bool
  | [], [] => true
  | (k, v) :: ps, (k', v') :: qs => pyEqb k k' && pyEqb v v' && pyEqbP ps qs
  | _, _ => false
termination_by ps _ => sizeOf ps

end

namespace PyVal

/-- Keys of a model dictionary (association list). -/
def dKeys (d : List (PyVal × PyVal)) : List PyVal := d.map Prod.fst

/-- Python `d[k]` lookup on a model dictionary. -/
def dGet (d : List (PyVal × PyVal)) (k : PyVal) : Option PyVal :=
  match d with
  | [] => Option.none
  | (k', v) :: rest => if pyEqb k' k then Option.some v else dGet rest k

/-- Python `d[k] = v` on a model dictionary: replace the entry if the key
is present, otherwise append it. -/
def dSet (d : List (PyVal × PyVal)) (k : PyVal) (v : PyVal) :
    List (PyVal × PyVal) :=
  match d with
  | [] => [(k, v)]
  | (k', v') :: rest =>
      if pyEqb k' k then (k, v) :: rest else (k', v') :: dSet rest k v

/-- Python `d.pop(k)` (the removal effect): drop the entry with key `k`. -/
def dPop (d : List (PyVal × PyVal)) (k : PyVal) : List (PyVal × PyVal) :=
  match d with
  | [] => []
  | (k', v') :: rest => if pyEqb k' k then rest else (k', v') :: dPop rest k

/-- Python `k in d` on a model dictionary. -/
def dHasKey (d : List (PyVal × PyVal)) (k : PyVal) : Bool :=
  (dGet d k).isSome

end PyVal

/-- Errors raised by the embedded code, one constructor per distinct
`raise`/failure site of the two source modules (plus the runtime errors
Python itself produces on the traced paths). -/
inductive PyErr where
  | unserializable (reason : String)
  | unregisteredType (cid : String)
  | noDictAttr
  | keyError (k : String)
  | typeError (msg : String)
  | indexError
  | attributeError (msg : String)
  | arityError (expected actual : Nat)
  | arityAtLeastError (expected actual : Nat)
  | argTypeError (i : Nat)
  | returnArityError (expected actual : Nat)
  | returnTypeError (i : Nat)
  | assertUnreachable
  | nameError (name : String)
  | syntaxError
deriving DecidableEq, Repr

/-- Python dict assignment `d[k] = v` on an association list with
decidable keys. -/
def assocSet {κ α : Type} [DecidableEq κ] (l : List (κ × α)) (k : κ)
    (v : α) : List (κ × α) :=
  match l with
  | [] => [(k, v)]
  | (k', v') :: rest =>
      if k' = k then (k, v) :: rest else (k', v') :: assocSet rest k v

/-- Python dict lookup on an association list with decidable keys (also
used for the object store's tables). -/
def assocGet {κ α : Type} [DecidableEq κ] (l : List (κ × α)) (k : κ) :
    Option α :=
  match l with
  | [] => Option.none
  | (k', v) :: rest => if k' = k then Option.some v else assocGet rest k

/-- Python `set.add` on a list-modelled set of strings. -/
def setInsert (l : List String) (k : String) : List String :=
  if k ∈ l then l else l ++ [k]

namespace RaySer

/-- Shape of a Python class as far as `serialization.py` inspects it:
its identifier (`module.name`, the result of `class_identifier`), its
`__bases__`, its `_fields` class attribute if any, whether it has a
`__new__` attribute, whether `cls.__new__(cls)` raises, whether bare
instances expose a `__dict__`, and whether they carry `__slots__`. -/
structure ClassShape where
  cid : String
  bases : List String
  fieldsAttr : Option PyVal
  hasNew : Bool
  newRaises : Bool
  instHasDict : Bool
  hasSlots : Bool

/-- Embeds `class_identifier(typ)`: the `module.name` string of a value's
runtime type. -/
def classIdentifier : PyVal → String
  | .none => "__builtin__.NoneType"
  | .pybool _ => "__builtin__.bool"
  | .int _ => "__builtin__.int"
  | .long _ => "__builtin__.long"
  | .float _ => "__builtin__.float"
  | .str _ => "__builtin__.str"
  | .unicode _ => "__builtin__.unicode"
  | .list _ => "__builtin__.list"
  | .tuple _ => "__builtin__.tuple"
  | .dict _ => "__builtin__.dict"
  | .objref _ => "libraylib.ObjRef"
  | .instObj cid _ => cid
  | .namedTup cid _ => cid
  | .ndarr _ _ => "numpy.ndarray"
  | .csrM _ _ _ _ => "scipy.sparse.csr.csr_matrix"
  | .cooM _ _ _ _ => "scipy.sparse.coo.coo_matrix"
  | .pickled _ => "__builtin__.str"

/-- Embeds `is_named_tuple(cls)`: the only base is `tuple`, and `_fields`
is a tuple of strings. -/
def is_named_tuple (cls : ClassShape) : Bool :=
  if cls.bases ≠ ["tuple"] then false
  else
    match cls.fieldsAttr with
    | Option.some (PyVal.tuple fs) =>
        fs.all fun f => match f with | PyVal.str _ => true | _ => false
    | _ => false

/-- Field names of a namedtuple class (defined when `is_named_tuple`). -/
def ntFieldNames (cls : ClassShape) : Option (List String) :=
  if is_named_tuple cls then
    match cls.fieldsAttr with
    | Option.some (PyVal.tuple fs) =>
        Option.some (fs.filterMap fun f =>
          match f with | PyVal.str s => Option.some s | _ => Option.none)
    | _ => Option.none
  else Option.none

/-- Embeds `check_serializable(cls)`: namedtuples pass; otherwise the
class must have `__new__`, it must not raise on bare allocation, bare
instances must expose `__dict__`, and there must be no `__slots__`. -/
def check_serializable (cls : ClassShape) : Except PyErr Unit :=
  if is_named_tuple cls then .ok ()
  else if ¬cls.hasNew then
    .error (.unserializable "no __new__ attribute (old-style class)")
  else if cls.newRaises then
    .error (.unserializable "overridden __new__")
  else if ¬cls.instHasDict then
    .error (.unserializable "no __dict__ attribute")
  else if cls.hasSlots then
    .error (.unserializable "uses __slots__")
  else .ok ()

/-- The four module-level registry tables of `serialization.py`:
`whitelisted_classes`, `classes_to_pickle`, `custom_serializers` and
`custom_deserializers` (a deserializer may have been stored as `None`). -/
structure Registry where
  whitelisted_classes : List (String × ClassShape)
  classes_to_pickle : List String
  custom_serializers : List (String × (PyVal → PyVal))
  custom_deserializers : List (String × Option (PyVal → PyVal))

/-- Embeds `add_class_to_whitelist(cls, pickle, custom_serializer,
custom_deserializer)`: records the class under its identifier, adds it to
the pickle set when requested, and stores the codec pair when a custom
serializer is given (the deserializer is stored even if `None`). -/
def add_class_to_whitelist (reg : Registry) (cls : ClassShape)
    (pickle : Bool) (custom_serializer : Option (PyVal → PyVal))
    (custom_deserializer : Option (PyVal → PyVal)) : Registry :=
  let class_id := cls.cid
  let w := assocSet reg.whitelisted_classes class_id cls
  let p := if pickle then setInsert reg.classes_to_pickle class_id
           else reg.classes_to_pickle
  match custom_serializer with
  | Option.some f =>
      ⟨w, p, assocSet reg.custom_serializers class_id f,
        assocSet reg.custom_deserializers class_id custom_deserializer⟩
  | Option.none => ⟨w, p, reg.custom_serializers, reg.custom_deserializers⟩

/-- Modelled from the spec: the public registration entry point (spec
§4.1 `register`, the repository's `ray.register_class`) is not among the
source files under `src/`.  Per the spec it checks the serializability
precondition at registration time — "unless `pickleFallback` is set or a
custom serializer is given, in which case these checks are skipped" —
failing with an unserializable-type error, and otherwise registers the
class; the precondition check and the whitelist update are the embedded
source functions `check_serializable` and `add_class_to_whitelist`. -/
def register_class (reg : Registry) (cls : ClassShape) (pickle : Bool)
    (custom_serializer : Option (PyVal → PyVal))
    (custom_deserializer : Option (PyVal → PyVal)) : Except PyErr Registry :=
  if pickle || custom_serializer.isSome then
    .ok (add_class_to_whitelist reg cls pickle custom_serializer
      custom_deserializer)
  else
    match check_serializable cls with
    | .error e => .error e
    | .ok () =>
        .ok (add_class_to_whitelist reg cls pickle custom_serializer
          custom_deserializer)

/-- Modelled from the spec: the `pickling` module is not among the source
files; §4.2 describes its role as an opaque generic deep-serialization
strategy, so `dumps` wraps the value as an opaque blob. -/
def pickling_dumps (v : PyVal) : PyVal := .pickled v

/-- Modelled from the spec: inverse of `pickling_dumps`; `loads` unwraps
the blob produced by `dumps` and fails on anything else. -/
def pickling_loads : PyVal → Except PyErr PyVal
  | .pickled v => .ok v
  | _ => .error (.typeError "invalid pickle data")

/-- A value's `__dict__` as Python exposes it: the attribute map of a
plain instance, or (via the namedtuple `__dict__` property) the field
map of a namedtuple; other values have no `__dict__`. -/
def objDict : PyVal → Option (List (PyVal × PyVal))
  | .instObj _ attrs => Option.some attrs
  | .namedTup _ fields => Option.some fields
  | _ => Option.none

/-- Python `obj.__getnewargs__()`: defined on namedtuples as the tuple of
field values. -/
def getnewargs : PyVal → Except PyErr PyVal
  | .namedTup _ fields => .ok (.tuple (fields.map Prod.snd))
  | _ => .error (.attributeError "no __getnewargs__")

/-- Embeds `serialize(obj)`: refuse unwhitelisted classes; pickle-marked
classes serialize as an opaque blob under `"data"`; classes with a custom
serializer store its result under `"data"`; every other class serializes
structurally as its `__dict__`, with namedtuples additionally recording
`__getnewargs__()` under `"_ray_getnewargs_"`; finally the class
identifier is added under `"_pytype_"`. -/
def serialize (reg : Registry) (obj : PyVal) : Except PyErr PyVal :=
  let class_id := classIdentifier obj
  match assocGet reg.whitelisted_classes class_id with
  | Option.none => .error (.unregisteredType class_id)
  | Option.some cls =>
    if class_id ∈ reg.classes_to_pickle then
      .ok (.dict (PyVal.dSet [(.str "data", pickling_dumps obj)]
        (.str "_pytype_") (.str class_id)))
    else
      match assocGet reg.custom_serializers class_id with
      | Option.some f =>
          .ok (.dict (PyVal.dSet [(.str "data", f obj)]
            (.str "_pytype_") (.str class_id)))
      | Option.none =>
        match objDict obj with
        | Option.none => .error .noDictAttr
        | Option.some d =>
          if is_named_tuple cls then
            match getnewargs obj with
            | .error e => .error e
            | .ok args =>
                .ok (.dict (PyVal.dSet
                  (PyVal.dSet d (.str "_ray_getnewargs_") args)
                  (.str "_pytype_") (.str class_id)))
          else
            .ok (.dict (PyVal.dSet d (.str "_pytype_") (.str class_id)))

/-- Embeds `deserialize(serialized_obj)`: dispatch on the `"_pytype_"`
tag; pickle-marked classes decode the blob; a stored custom deserializer
is applied to the `"data"` field; otherwise a bare instance is allocated
(`cls.__new__`, with the captured constructor arguments for namedtuples)
and its `__dict__` is repopulated from the remaining entries. -/
def deserialize (reg : Registry) (serialized_obj : PyVal) :
    Except PyErr PyVal :=
  match serialized_obj with
  | .dict entries =>
    match PyVal.dGet entries (.str "_pytype_") with
    | Option.some (.str class_id) =>
      match assocGet reg.whitelisted_classes class_id with
      | Option.none => .error (.keyError class_id)
      | Option.some cls =>
        if class_id ∈ reg.classes_to_pickle then
          match PyVal.dGet entries (.str "data") with
          | Option.none => .error (.keyError "data")
          | Option.some b => pickling_loads b
        else
          match assocGet reg.custom_deserializers class_id with
          | Option.some (Option.some g) =>
            match PyVal.dGet entries (.str "data") with
            | Option.none => .error (.keyError "data")
            | Option.some b => .ok (g b)
          | Option.some Option.none =>
              .error (.typeError "NoneType object is not callable")
          | Option.none =>
            if PyVal.dHasKey entries (.str "_ray_getnewargs_") then
              match PyVal.dGet entries (.str "_ray_getnewargs_") with
              | Option.some (.tuple args) =>
                match ntFieldNames cls with
                | Option.some names =>
                  if names.length = args.length then
                    .ok (.namedTup class_id
                      (List.zip (names.map PyVal.str) args))
                  else .error (.typeError "__new__: wrong argument count")
                | Option.none =>
                    .error (.typeError "__new__ takes no extra arguments")
              | _ => .error (.typeError "argument after * not a sequence")
            else
              .ok (.instObj class_id (PyVal.dPop entries (.str "_pytype_")))
    | _ => .error (.keyError "_pytype_")
  | _ => .error (.typeError "object is not subscriptable")

/-- Embeds `array_custom_serializer(obj)`: `(obj.tolist(), obj.dtype.str)`
on the nested-list model of an ndarray. -/
def array_custom_serializer (obj : PyVal) : PyVal :=
  match obj with
  | .ndarr data dtype => .tuple [data, .str dtype]
  | v => v

/-- Embeds `array_custom_deserializer(serialized_obj)`:
`np.array(serialized_obj[0], dtype=np.dtype(serialized_obj[1]))`. -/
def array_custom_deserializer (s : PyVal) : PyVal :=
  match s with
  | .tuple [data, .str dtype] => .ndarr data dtype
  | v => v

/-- The class shape of `numpy.ndarray` as the module sees it. -/
def ndarrayClass : ClassShape :=
  ⟨"numpy.ndarray", ["object"], Option.none, true, false, false, false⟩

/-- Registry state after the module-level
`add_class_to_whitelist(np.ndarray, ...)` call runs at import time. -/
def initialRegistry : Registry :=
  add_class_to_whitelist ⟨[], [], [], []⟩ ndarrayClass false
    (Option.some array_custom_serializer)
    (Option.some array_custom_deserializer)

end RaySer

namespace Orch

/-- Expected-type specifiers appearing in `arg_types`/`return_types`
declarations of distributed functions. -/
inductive PyType where
  | tInt
  | tLong
  | tFloat
  | tStr
  | tUnicode
  | tBool
  | tList
  | tTuple
  | tDict
deriving DecidableEq, Repr

/-- Python `isinstance(v, t)` for the modelled type specifiers (`bool` is
a subclass of `int`, and namedtuples are subclasses of `tuple`). -/
def isinstance (v : PyVal) (t : PyType) : Bool :=
  match t, v with
  | .tInt, .int _ => true
  | .tInt, .pybool _ => true
  | .tLong, .long _ => true
  | .tFloat, .float _ => true
  | .tStr, .str _ => true
  | .tUnicode, .unicode _ => true
  | .tBool, .pybool _ => true
  | .tList, .list _ => true
  | .tTuple, .tuple _ => true
  | .tTuple, .namedTup _ _ => true
  | .tDict, .dict _ => true
  | _, _ => false

/-- Python `isinstance(v, orchpy.lib.ObjRef)`. -/
def isObjRef : PyVal → Bool
  | .objref _ => true
  | _ => false

/-- The `elif` half of the two arity guards at the top of
`check_arguments`: `len(args) < len(arg_types) - 1 and arg_types[-1] is
None` (evaluating `arg_types[-1]` raises IndexError on an empty
signature). -/
def checkArityElif (argTypes : List (Option PyType)) (nargs : Nat) :
    Except PyErr Unit :=
  if nargs + 1 < argTypes.length then
    match argTypes.getLast? with
    | Option.none => .error .indexError
    | Option.some lt =>
      if lt = Option.none then
        .error (.arityAtLeastError (argTypes.length - 1) nargs)
      else .ok ()
  else .ok ()

/-- The two arity guards at the top of `check_arguments`: a non-variadic
signature requires an exact argument count, a variadic one (sentinel
`None` in last position) requires at least `len(arg_types) - 1`
arguments; conjuncts are evaluated with Python's short-circuiting. -/
def checkArity (argTypes : List (Option PyType)) (nargs : Nat) :
    Except PyErr Unit :=
  if nargs ≠ argTypes.length then
    match argTypes.getLast? with
    | Option.none => .error .indexError
    | Option.some lt =>
      if lt ≠ Option.none then .error (.arityError argTypes.length nargs)
      else checkArityElif argTypes nargs
  else checkArityElif argTypes nargs

/-- The `expected_type` if/elif chain shared verbatim by
`check_arguments` and `get_arguments_for_execution`: position `i` uses
`arg_types[i]` below the last slot; the last slot uses itself unless it
is the sentinel; past-the-end (or last-slot-sentinel) positions repeat
`arg_types[-2]` when the signature is variadic with at least two
entries; every other combination trips
`assert False, "This code should be unreachable."`. -/
def expectedTypeAt (argTypes : List (Option PyType)) (i : Nat) :
    Except PyErr (Option PyType) :=
  if i + 1 < argTypes.length then
    .ok (argTypes.getD i Option.none)
  else if i + 1 = argTypes.length ∧
      argTypes.getLast? ≠ Option.some Option.none then
    match argTypes.getLast? with
    | Option.some lt => .ok lt
    | Option.none => .error .indexError
  else
    match argTypes.getLast? with
    | Option.none => .error .indexError
    | Option.some lt =>
      if lt = Option.none ∧ argTypes.length > 1 then
        .ok (argTypes.getD (argTypes.length - 2) Option.none)
      else .error .assertUnreachable

/-- The per-position loop of `check_arguments`: compute the expected
type (possibly tripping the unreachable assert), accept ObjRefs without
checking, and otherwise require `isinstance` (an expected type of `None`
makes `isinstance` itself raise). -/
def checkArgLoop (argTypes : List (Option PyType)) :
    List PyVal → Nat → Except PyErr Unit
  | [], _ => .ok ()
  | arg :: rest, i =>
    match expectedTypeAt argTypes i with
    | .error e => .error e
    | .ok et =>
      if isObjRef arg then checkArgLoop argTypes rest (i + 1)
      else
        match et with
        | Option.none => .error (.typeError "isinstance arg 2 must be a type")
        | Option.some t =>
          if isinstance arg t then checkArgLoop argTypes rest (i + 1)
          else .error (.argTypeError i)

/-- Embeds `check_arguments(function, args)`. -/
def check_arguments (argTypes : List (Option PyType)) (args : List PyVal) :
    Except PyErr Unit :=
  match checkArity argTypes args.length with
  | .error e => .error e
  | .ok () => checkArgLoop argTypes args 0

/-- Python sequence protocol as used by `len(result)`/`result[i]` and
`outputs[i]`: tuples, lists, namedtuples and strings are indexable
sequences. -/
def toSeq : PyVal → Option (List PyVal)
  | .tuple xs => Option.some xs
  | .list xs => Option.some xs
  | .namedTup _ fields => Option.some (fields.map Prod.snd)
  | .str s => Option.some (s.toList.map fun c => PyVal.str (String.mk [c]))
  | _ => Option.none

/-- The per-element loop of `check_return_values` over
`zip(return_types, result)`: each element must satisfy its declared type
or be an ObjRef. -/
def checkRetLoop : List (PyType × PyVal) → Nat → Except PyErr Unit
  | [], _ => .ok ()
  | (t, x) :: rest, i =>
    if ¬isinstance x t ∧ ¬isObjRef x then .error (.returnTypeError i)
    else checkRetLoop rest (i + 1)

/-- Embeds `check_return_values(function, result)`: with declared return
arity 1 the result is wrapped as `(result,)` and — the per-element
`isinstance` check being commented out in the source — accepted
unconditionally; otherwise the result's length must equal the declared
arity and each element must satisfy its type or be an ObjRef. -/
def check_return_values (returnTypes : List PyType) (result : PyVal) :
    Except PyErr Unit :=
  if returnTypes.length = 1 then .ok ()
  else
    match toSeq result with
    | Option.none => .error (.typeError "len() of unsized object")
    | Option.some xs =>
      if xs.length ≠ returnTypes.length then
        .error (.returnArityError returnTypes.length xs.length)
      else checkRetLoop (returnTypes.zip xs) 0

/-- Embeds `func_executor(arguments)`: run the wrapped function, validate
the result with `check_return_values`, and hand the unmodified result
back. -/
def func_executor (returnTypes : List PyType) (func : List PyVal → PyVal)
    (arguments : List PyVal) : Except PyErr PyVal :=
  let result := func arguments
  match check_return_values returnTypes result with
  | .error e => .error e
  | .ok () => .ok result

/-- An entry of the object store: either a raw columnar payload written
by `put_arrow`, or a structural capsule written by the C-side
`put_object` together with the contained object references. -/
inductive StoredItem where
  | raw (payload : PyVal)
  | obj (capsule : PyVal) (contained : List Nat)

/-- The object store as the worker observes it: directly written values
plus the alias edges created by `alias_objrefs`. -/
structure ObjStore where
  vals : List (Nat × StoredItem)
  aliases : List (Nat × Nat)

/-- The store with nothing written and no aliases. -/
def emptyStore : ObjStore := ⟨[], []⟩

/-- Embeds `orchpy.lib.put_arrow(handle, objref, payload)`. -/
def put_arrow (st : ObjStore) (r : Nat) (payload : PyVal) : ObjStore :=
  ⟨(r, .raw payload) :: st.vals, st.aliases⟩

/-- Embeds the C-side `orchpy.lib.put_object(handle, objref, capsule,
contained_objrefs)`. -/
def putObjectPrim (st : ObjStore) (r : Nat) (capsule : PyVal)
    (refs : List Nat) : ObjStore :=
  ⟨(r, .obj capsule refs) :: st.vals, st.aliases⟩

/-- Embeds `Worker.alias_objrefs(alias_objref, target_objref)`. -/
def alias_objrefs (st : ObjStore) (a t : Nat) : ObjStore :=
  ⟨st.vals, (a, t) :: st.aliases⟩

/-- Resolution of an object reference against the store: follow alias
edges (fuel-bounded) and then read the directly written value. -/
def resolve (st : ObjStore) : Nat → Nat → Option StoredItem
  | 0, _ => Option.none
  | fuel + 1, r =>
    match assocGet st.aliases r with
    | Option.some t => resolve st fuel t
    | Option.none => assocGet st.vals r

mutual

/-- Object references contained in a value (collected recursively), the
`contained_objrefs` list the orchpy serializer reports to the store. -/
def containedObjRefs : PyVal → List Nat
  | .objref i => [i]
  | .list xs => containedObjRefsL xs
  | .tuple xs => containedObjRefsL xs
  | .dict d => containedObjRefsP d
  | .instObj _ a => containedObjRefsP a
  | .namedTup _ f => containedObjRefsP f
  | .ndarr d _ => containedObjRefs d
  | .csrM s d i p =>
      containedObjRefs s ++ containedObjRefs d ++ containedObjRefs i ++
        containedObjRefs p
  | .cooM s r c d =>
      containedObjRefs s ++ containedObjRefs r ++ containedObjRefs c ++
        containedObjRefs d
  | .pickled v => containedObjRefs v
  | _ => []
termination_by v => sizeOf v

/-- `containedObjRefs` over a list of values. -/
def containedObjRefsL : List PyVal → List Nat
  | [] => []
  | x :: xs => containedObjRefs x ++ containedObjRefsL xs
termination_by xs => sizeOf xs

/-- `containedObjRefs` over key/value pairs. -/
def containedObjRefsP : List (PyVal × PyVal) → List Nat
  | [] => []
  | (k, v) :: ps => containedObjRefs k ++ containedObjRefs v ++
      containedObjRefsP ps
termination_by ps => sizeOf ps

end

/-- Modelled from the spec: the orchpy `serialization` module is not
among the source files under `src/`; per §4.2/§6 its `serialize` turns a
value into an object capsule together with the list of object references
contained in it, so the model keeps the value itself as the capsule and
collects its references. -/
def orch_serialize (v : PyVal) : PyVal × List Nat :=
  (v, containedObjRefs v)

/-- Embeds `np.array(...)` as applied to the `shape` of a sparse matrix
inside `put_object`. -/
def npArray (v : PyVal) : PyVal := .ndarr v "int64"

/-- Embeds `Worker.put_object(objref, value)`: a `csr_matrix` is
decomposed into `shape`/`data`/`indices`/`indptr` and written via
`put_arrow`; an `ndarray` is written via `put_arrow` as is; a
`coo_matrix` is decomposed into `shape`/`row`/`col`/`data`; a plain
`dict` reaches the `elif type(value) == dict or type(value) ==
np.ndarray` branch, whose body calls `orchpy.lib.put_arrow(value)` with
a single argument and therefore raises a TypeError; every other value is
serialized and stored via the C-side `put_object` with its contained
references. -/
def put_object (st : ObjStore) (objref : Nat) (value : PyVal) :
    Except PyErr ObjStore :=
  match value with
  | .csrM shape data indices indptr =>
      .ok (put_arrow st objref (.dict
        [(.str "shape", npArray shape), (.str "data", data),
         (.str "indices", indices), (.str "indptr", indptr)]))
  | .ndarr d t => .ok (put_arrow st objref (.ndarr d t))
  | .cooM shape row col data =>
      .ok (put_arrow st objref (.dict
        [(.str "shape", npArray shape), (.str "row", row),
         (.str "col", col), (.str "data", data)]))
  | .dict _ =>
      .error (.typeError "put_arrow() takes exactly 3 arguments (1 given)")
  | v =>
      let (capsule, refs) := orch_serialize v
      .ok (putObjectPrim st objref capsule refs)

/-- Helper reading one of the four fields during sparse-matrix
reconstruction (all four are present when it is called). -/
def dGetD (entries : List (PyVal × PyVal)) (k : String) : PyVal :=
  (PyVal.dGet entries (.str k)).getD .none

/-- Embeds the `is_arrow` branch of `Worker.get_object`, as a function of
the payload `d` returned by `get_arrow`: a dict of exactly 4 entries
containing the keys `shape`/`data`/`indices`/`indptr` is rebuilt as a
`csr_matrix`, one containing `shape`/`row`/`col`/`data` as a
`coo_matrix`, and any other payload is returned unchanged. -/
def get_object_raw (d : PyVal) : PyVal :=
  match d with
  | .dict entries =>
      if entries.length = 4 then
        if (["shape", "data", "indices", "indptr"].all fun k =>
            PyVal.dHasKey entries (.str k)) then
          .csrM (dGetD entries "shape") (dGetD entries "data")
            (dGetD entries "indices") (dGetD entries "indptr")
        else if (["shape", "row", "col", "data"].all fun k =>
            PyVal.dHasKey entries (.str k)) then
          .cooM (dGetD entries "shape") (dGetD entries "row")
            (dGetD entries "col") (dGetD entries "data")
        else .dict entries
      else .dict entries
  | v => v

/-- The loop body of `store_outputs_in_objstore` over the
`(returnRef, output)` pairs: ObjRef outputs are aliased, everything else
goes through `Worker.put_object`. -/
def store_outputs_loop : ObjStore → List (Nat × PyVal) →
    Except PyErr ObjStore
  | st, [] => .ok st
  | st, (r, out) :: rest =>
    match out with
    | .objref t => store_outputs_loop (alias_objrefs st r t) rest
    | v =>
      match put_object st r v with
      | .error e => .error e
      | .ok st' => store_outputs_loop st' rest

/-- Embeds `store_outputs_in_objstore(objrefs, outputs)`: with a single
returnRef the outputs are wrapped as `(outputs,)`; then for each `i` in
`range(len(objrefs))`, an ObjRef output makes `objrefs[i]` an alias of
it and any other output is written through `Worker.put_object`. -/
def store_outputs_in_objstore (st : ObjStore) (objrefs : List Nat)
    (outputs : PyVal) : Except PyErr ObjStore :=
  let outputs' := if objrefs.length = 1 then PyVal.tuple [outputs]
                  else outputs
  match toSeq outputs' with
  | Option.none => .error (.typeError "object is not indexable")
  | Option.some xs =>
    if xs.length < objrefs.length then .error .indexError
    else store_outputs_loop st (objrefs.zip xs)

end Orch

namespace RaySer

/-- The single-quote character, written by code point to keep the
development free of quote literals. -/
def chQuote : Char := Char.ofNat 39

/-- The backslash character, written by code point. -/
def chBackslash : Char := Char.ofNat 92

/-- The opening-brace character, written by code point. -/
def chLBrace : Char := Char.ofNat 123

/-- The closing-brace character, written by code point. -/
def chRBrace : Char := Char.ofNat 125

/-- The decimal digit character for `n < 10`. -/
def digitChar (n : Nat) : Char := Char.ofNat (48 + n)

/-- Whether a character is a decimal digit. -/
def isDigit (c : Char) : Bool := decide (48 ≤ c.toNat ∧ c.toNat ≤ 57)

/-- Numeric value of a digit character. -/
def digitVal (c : Char) : Nat := c.toNat - 48

/-- Little-endian decimal digits of a natural number. -/
def natDigitsRev (n : Nat) : List Char :=
  if h : n < 10 then [digitChar n]
  else digitChar (n % 10) :: natDigitsRev (n / 10)
termination_by n
decreasing_by exact Nat.div_lt_self (by omega) (by omega)

/-- Decimal notation of a natural number (Python `repr` of a
non-negative integer). -/
def printNat (n : Nat) : List Char := (natDigitsRev n).reverse

/-- Python `repr` of an integer, with a leading minus when negative. -/
def printInt (n : Int) : List Char :=
  if n < 0 then '-' :: printNat (-n).toNat else printNat n.toNat

/-- Python `repr` of a float under the model: the finite value
`m * 10 ^ e` prints as the valid float literal `<m>e<e>`, and the
non-finite values print as the bare names `inf`, `-inf` and `nan`
(exactly as Python 2 prints them). -/
def printFloat : PyFloat → List Char
  | .finite m e => printInt m ++ 'e' :: printInt e
  | .inf => ['i', 'n', 'f']
  | .ninf => ['-', 'i', 'n', 'f']
  | .nan => ['n', 'a', 'n']

/-- Escaping of one character inside a single-quoted `repr` string:
backslashes and quotes are backslash-escaped, everything else is kept. -/
def escapeChar (c : Char) : List Char :=
  if c = chBackslash then [chBackslash, chBackslash]
  else if c = chQuote then [chBackslash, chQuote]
  else [c]

/-- Escaping of a character sequence inside a single-quoted string. -/
def escapeChars : List Char → List Char
  | [] => []
  | c :: cs => escapeChar c ++ escapeChars cs

mutual

/-- Python `repr` of a value, as a character list: the literal notation
for `None`, booleans, numbers, (unicode) strings, lists, tuples and
dicts; values outside the literal fragment print as an opaque
placeholder (they are filtered out before `repr` is taken). -/
def reprChars : PyVal → List Char
  | .none => ['N', 'o', 'n', 'e']
  | .pybool true => ['T', 'r', 'u', 'e']
  | .pybool false => ['F', 'a', 'l', 's', 'e']
  | .int n => printInt n
  | .long n => printInt n ++ ['L']
  | .float f => printFloat f
  | .str s => chQuote :: (escapeChars s.toList ++ [chQuote])
  | .unicode s => 'u' :: chQuote :: (escapeChars s.toList ++ [chQuote])
  | .list xs => '[' :: (reprElems xs ++ [']'])
  | .tuple [] => ['(', ')']
  | .tuple [x] => '(' :: (reprChars x ++ [',', ')'])
  | .tuple (x :: y :: rest) => '(' :: (reprElems (x :: y :: rest) ++ [')'])
  | .dict d => chLBrace :: (reprPairs d ++ [chRBrace])
  | _ => ['<', 'o', 'b', 'j', 'e', 'c', 't', '>']
termination_by v => sizeOf v

/-- Comma-space separated `repr`s of container elements. -/
def reprElems : List PyVal → List Char
  | [] => []
  | [x] => reprChars x
  | x :: y :: rest => reprChars x ++ [',', ' '] ++ reprElems (y :: rest)
termination_by xs => sizeOf xs

/-- Comma-space separated `key: value` `repr`s of dict entries. -/
def reprPairs : List (PyVal × PyVal) → List Char
  | [] => []
  | [(k, v)] => reprChars k ++ [':', ' '] ++ reprChars v
  | (k, v) :: p :: rest =>
      reprChars k ++ [':', ' '] ++ reprChars v ++ [',', ' '] ++
        reprPairs (p :: rest)
termination_by ps => sizeOf ps

end

mutual

/-- Embeds `is_argument_serializable(value)`: compositions of
`int`/`float`/`long`/`bool`/`None` under lists, tuples and dicts of at
most 100 entries and (unicode) strings of at most 100 characters. -/
def is_argument_serializable : PyVal → Bool
  | .int _ => true
  | .float _ => true
  | .long _ => true
  | .pybool _ => true
  | .none => true
  | .list xs =>
      if xs.length ≤ 100 then is_argument_serializableL xs else false
  | .tuple xs =>
      if xs.length ≤ 100 then is_argument_serializableL xs else false
  | .dict d =>
      if d.length ≤ 100 then is_argument_serializableP d else false
  | .str s => decide (s.length ≤ 100)
  | .unicode s => decide (s.length ≤ 100)
  | _ => false
termination_by v => sizeOf v

/-- `is_argument_serializable` over container elements. -/
def is_argument_serializableL : List PyVal → Bool
  | [] => true
  | x :: xs => is_argument_serializable x && is_argument_serializableL xs
termination_by xs => sizeOf xs

/-- `is_argument_serializable` over dict entries (keys and values). -/
def is_argument_serializableP : List (PyVal × PyVal) → Bool
  | [] => true
  | (k, v) :: ps =>
      is_argument_serializable k && is_argument_serializable v &&
        is_argument_serializableP ps
termination_by ps => sizeOf ps

end

mutual

/-- Whether every float occurring in a value is finite (no `inf`,
`-inf` or `nan`). -/
def finiteFloats : PyVal → Bool
  | .float (.finite _ _) => true
  | .float _ => false
  | .list xs => finiteFloatsL xs
  | .tuple xs => finiteFloatsL xs
  | .dict d => finiteFloatsP d
  | _ => true
termination_by v => sizeOf v

/-- `finiteFloats` over container elements. -/
def finiteFloatsL : List PyVal → Bool
  | [] => true
  | x :: xs => finiteFloats x && finiteFloatsL xs
termination_by xs => sizeOf xs

/-- `finiteFloats` over dict entries. -/
def finiteFloatsP : List (PyVal × PyVal) → Bool
  | [] => true
  | (k, v) :: ps => finiteFloats k && finiteFloats v && finiteFloatsP ps
termination_by ps => sizeOf ps

end

/-- The claim-side characterisation, written from the words of the
specification sentence: a composition of `int`/`float`/`long`/`bool`/
`None` with lists, tuples, dicts and strings each of length at most
100. -/
inductive SerializableComposition : PyVal → Prop where
  | int (n : Int) : SerializableComposition (.int n)
  | float (f : PyFloat) : SerializableComposition (.float f)
  | long (n : Int) : SerializableComposition (.long n)
  | bool (b : Bool) : SerializableComposition (.pybool b)
  | none : SerializableComposition .none
  | str (s : String) : s.length ≤ 100 → SerializableComposition (.str s)
  | unicode (s : String) : s.length ≤ 100 →
      SerializableComposition (.unicode s)
  | list (xs : List PyVal) : xs.length ≤ 100 →
      (∀ x ∈ xs, SerializableComposition x) →
      SerializableComposition (.list xs)
  | tuple (xs : List PyVal) : xs.length ≤ 100 →
      (∀ x ∈ xs, SerializableComposition x) →
      SerializableComposition (.tuple xs)
  | dict (d : List (PyVal × PyVal)) : d.length ≤ 100 →
      (∀ p ∈ d, SerializableComposition p.1) →
      (∀ p ∈ d, SerializableComposition p.2) →
      SerializableComposition (.dict d)

/-- Embeds `serialize_argument_if_possible(value)`: `None` unless the
value is serializable as a composition of primitives and its `repr` has
at most 1000 characters, in which case that `repr` string is returned. -/
def serialize_argument_if_possible (value : PyVal) : Option String :=
  if ¬is_argument_serializable value then Option.none
  else
    let serialized_value := String.mk (reprChars value)
    if serialized_value.length > 1000 then Option.none
    else Option.some serialized_value

/-- Body of a single-quoted string literal: read characters until the
closing quote, undoing backslash escapes; `Option.none` when the input
ends before the quote. -/
def parseStrBody : List Char → Option (List Char × List Char)
  | [] => Option.none
  | c :: rest =>
    if c = chQuote then Option.some ([], rest)
    else if c = chBackslash then
      match rest with
      | [] => Option.none
      | d :: rest' =>
        match parseStrBody rest' with
        | Option.some (s, r) => Option.some (d :: s, r)
        | Option.none => Option.none
    else
      match parseStrBody rest with
      | Option.some (s, r) => Option.some (c :: s, r)
      | Option.none => Option.none

/-- Greedily read decimal digits, folding them onto an accumulator. -/
def parseDigits : Nat → List Char → Nat × List Char
  | acc, [] => (acc, [])
  | acc, c :: cs =>
    if isDigit c then parseDigits (acc * 10 + digitVal c) cs
    else (acc, c :: cs)

/-- Whether the input begins with a decimal digit. -/
def startsDigit : List Char → Bool
  | [] => false
  | c :: _ => isDigit c

/-- The integer a digit run denotes, negated under a leading minus. -/
def intOfSign (neg : Bool) (n : Nat) : Int :=
  if neg then -(n : Int) else (n : Int)

/-- Continuation of a numeric literal after its leading digits: an `L`
suffix makes a long, an exponent makes a float, anything else leaves an
int. -/
def parseNumAfterDigits (neg : Bool) (n : Nat) :
    List Char → Except PyErr (PyVal × List Char)
  | [] => .ok (.int (intOfSign neg n), [])
  | c :: r =>
    if c = 'L' then .ok (.long (intOfSign neg n), r)
    else if c = 'e' then
      match r with
      | [] => .error .syntaxError
      | c2 :: r2 =>
        if c2 = '-' then
          if startsDigit r2 then
            match parseDigits 0 r2 with
            | (e, r3) => .ok (.float (.finite (intOfSign neg n) (-(e : Int))), r3)
          else .error .syntaxError
        else if isDigit c2 then
          match parseDigits 0 (c2 :: r2) with
          | (e, r3) => .ok (.float (.finite (intOfSign neg n) (e : Int)), r3)
        else .error .syntaxError
    else .ok (.int (intOfSign neg n), c :: r)

/-- A numeric literal: optional minus sign, digits, then an optional
long/float continuation. -/
def parseNumber : List Char → Except PyErr (PyVal × List Char)
  | [] => .error .syntaxError
  | c :: r =>
    if c = '-' then
      if startsDigit r then
        match parseDigits 0 r with
        | (n, r2) => parseNumAfterDigits true n r2
      else .error .syntaxError
    else if isDigit c then
      match parseDigits 0 (c :: r) with
      | (n, r2) => parseNumAfterDigits false n r2
    else .error .syntaxError

/-- The three literal parsers at one level of nesting, packaged so that
each fuel level is built from the previous one by plain non-recursive
step functions. -/
structure ParseFns where
  pv : List Char → Except PyErr (PyVal × List Char)
  pe : List Char → Except PyErr (List PyVal × List Char)
  pp : List Char → Except PyErr (List (PyVal × PyVal) × List Char)

/-- One literal expression, as Python's `eval` accepts the outputs of
`repr` on the primitive-composition fragment: the names `True`, `False`
and `None`, numeric literals, single-quoted (unicode) strings, lists,
tuples and dicts.  The names `inf` and `nan` that `repr` produces for
non-finite floats are NOT literals — evaluating them raises a
`NameError` — and any other input is rejected.  The recursive calls on
list/tuple elements and dict pairs go through `rec`, the parsers of the
previous fuel level. -/
def parseValStep (rec : ParseFns) :
    List Char → Except PyErr (PyVal × List Char)
  | [] => .error .syntaxError
  | c :: r =>
      if c = 'N' then
        match r with
        | 'o' :: 'n' :: 'e' :: r2 => .ok (.none, r2)
        | _ => .error .syntaxError
      else if c = 'T' then
        match r with
        | 'r' :: 'u' :: 'e' :: r2 => .ok (.pybool true, r2)
        | _ => .error .syntaxError
      else if c = 'F' then
        match r with
        | 'a' :: 'l' :: 's' :: 'e' :: r2 => .ok (.pybool false, r2)
        | _ => .error .syntaxError
      else if c = 'i' then .error (.nameError "inf")
      else if c = 'n' then .error (.nameError "nan")
      else if c = '[' then
        match r with
        | [] => .error .syntaxError
        | c2 :: r2 =>
          if c2 = ']' then .ok (.list [], r2)
          else
            match rec.pe (c2 :: r2) with
            | .error e => .error e
            | .ok (xs, r3) =>
              match r3 with
              | ']' :: r4 => .ok (.list xs, r4)
              | _ => .error .syntaxError
      else if c = '(' then
        match r with
        | [] => .error .syntaxError
        | c2 :: r2 =>
          if c2 = ')' then .ok (.tuple [], r2)
          else
            match rec.pe (c2 :: r2) with
            | .error e => .error e
            | .ok (xs, r3) =>
              match r3 with
              | ',' :: ')' :: r4 => .ok (.tuple xs, r4)
              | ')' :: r4 => .ok (.tuple xs, r4)
              | _ => .error .syntaxError
      else if c = 'u' then
        match r with
        | [] => .error .syntaxError
        | c2 :: r2 =>
          if c2 = chQuote then
            match parseStrBody r2 with
            | Option.some (s, r3) => .ok (.unicode (String.mk s), r3)
            | Option.none => .error .syntaxError
          else .error .syntaxError
      else if c = chQuote then
        match parseStrBody r with
        | Option.some (s, r2) => .ok (.str (String.mk s), r2)
        | Option.none => .error .syntaxError
      else if c = chLBrace then
        match r with
        | [] => .error .syntaxError
        | c2 :: r2 =>
          if c2 = chRBrace then .ok (.dict [], r2)
          else
            match rec.pp (c2 :: r2) with
            | .error e => .error e
            | .ok (ps, r3) =>
              match r3 with
              | c4 :: r4 =>
                  if c4 = chRBrace then .ok (.dict ps, r4)
                  else .error .syntaxError
              | [] => .error .syntaxError
      else if c = '-' then
        match r with
        | 'i' :: _ => .error (.nameError "inf")
        | _ => parseNumber (c :: r)
      else parseNumber (c :: r)

/-- Comma-space separated sequence of literal expressions, one step:
elements are parsed by `rec.pv` and further elements by `rec.pe`. -/
def parseElemsStep (rec : ParseFns) (cs : List Char) :
    Except PyErr (List PyVal × List Char) :=
  match rec.pv cs with
  | .error e => .error e
  | .ok (x, r) =>
    match r with
    | ',' :: ' ' :: r2 =>
      (match rec.pe r2 with
       | .ok (xs, r3) => .ok (x :: xs, r3)
       | .error e => .error e)
    | _ => .ok ([x], r)

/-- Comma-space separated sequence of `key: value` literal pairs, one
step: keys and values are parsed by `rec.pv` and further pairs by
`rec.pp`. -/
def parsePairsStep (rec : ParseFns) (cs : List Char) :
    Except PyErr (List (PyVal × PyVal) × List Char) :=
  match rec.pv cs with
  | .error e => .error e
  | .ok (k, r) =>
    match r with
    | ':' :: ' ' :: r2 =>
      (match rec.pv r2 with
       | .error e => .error e
       | .ok (v, r3) =>
         match r3 with
         | ',' :: ' ' :: r4 =>
           (match rec.pp r4 with
            | .ok (ps, r5) => .ok ((k, v) :: ps, r5)
            | .error e => .error e)
         | _ => .ok ([(k, v)], r3))
    | _ => .error .syntaxError

/-- The packaged parsers with `fuel` levels of recursion available:
fuel `0` always fails, and each further level applies the step
functions to the previous level's parsers. -/
def parseFnsAt : Nat → ParseFns
  | 0 => ⟨fun _ => .error .syntaxError, fun _ => .error .syntaxError,
      fun _ => .error .syntaxError⟩
  | fuel + 1 => ⟨parseValStep (parseFnsAt fuel),
      parseElemsStep (parseFnsAt fuel), parsePairsStep (parseFnsAt fuel)⟩

/-- One literal expression with `fuel` levels of nesting available. -/
def parseVal (fuel : Nat) : List Char → Except PyErr (PyVal × List Char) :=
  (parseFnsAt fuel).pv

/-- Comma-space separated elements with `fuel` levels available. -/
def parseElems (fuel : Nat) :
    List Char → Except PyErr (List PyVal × List Char) :=
  (parseFnsAt fuel).pe

/-- Comma-space separated pairs with `fuel` levels available. -/
def parsePairs (fuel : Nat) :
    List Char → Except PyErr (List (PyVal × PyVal) × List Char) :=
  (parseFnsAt fuel).pp

/-- Embeds `deserialize_argument(serialized_value)`, i.e. Python
`eval`: parse the string as a single literal expression consuming all
input. -/
def deserialize_argument (serialized_value : String) :
    Except PyErr PyVal :=
  match parseVal (serialized_value.length + 1) serialized_value.toList with
  | .error e => .error e
  | .ok (v, []) => .ok v
  | .ok (_, _ :: _) => .error .syntaxError

/-- Characters that may legitimately follow a complete numeric literal
in the outputs of `repr`: end of input, or anything that is not a digit,
`e` or `L` (which would extend the literal). -/
def stopperB : List Char → Bool
  | [] => true
  | c :: _ => ¬(isDigit c || c = 'e' || c = 'L')

/-- Whether the input does not begin with the comma-space element
separator (which would make `parseElems` continue). -/
def notCommaSpace : List Char → Bool
  | c1 :: c2 :: _ => ¬(c1 = ',' ∧ c2 = ' ')
  | _ => true

/-- A concrete plain (non-namedtuple) registrable class, used as a test
fixture. -/
def plainClassA : ClassShape :=
  ⟨"m.A", ["object"], Option.none, true, false, true, false⟩

/-- A registry holding just `plainClassA` on the structural path. -/
def registryA : Registry :=
  add_class_to_whitelist ⟨[], [], [], []⟩ plainClassA false Option.none
    Option.none

end RaySer

namespace Orch

/-- The store entry `Worker.put_object` writes for a value on which it
succeeds: the columnar decomposition for sparse matrices, the array
itself for ndarrays, and the serialized capsule with its contained
references for everything else (plain dicts never produce an entry —
`put_object` raises on them — so their catch-all clause here is inert). -/
def putItem : PyVal → StoredItem
  | .csrM shape data indices indptr =>
      .raw (.dict
        [(.str "shape", npArray shape), (.str "data", data),
         (.str "indices", indices), (.str "indptr", indptr)])
  | .ndarr d t => .raw (.ndarr d t)
  | .cooM shape row col data =>
      .raw (.dict
        [(.str "shape", npArray shape), (.str "row", row),
         (.str "col", col), (.str "data", data)])
  | v => .obj v (containedObjRefs v)

end Orch

/-! ## Helper lemmas -/

/-- The per-element return-value loop succeeds exactly when every pair
satisfies the type-or-ObjRef condition (the running index only affects
the error payload). -/
theorem checkRetLoop_ok_iff (ps : List (Orch.PyType × PyVal)) :
    ∀ i, Orch.checkRetLoop ps i = .ok () ↔
      ∀ p ∈ ps, Orch.isinstance p.2 p.1 = true ∨ Orch.isObjRef p.2 = true := by
  induction ps with
  | nil => intro i; simp [Orch.checkRetLoop]
  | cons hd tl ih =>
    intro i
    obtain ⟨t, x⟩ := hd
    by_cases h1 : Orch.isinstance x t = true
    · have hc : ¬(Orch.isinstance x t = false ∧ Orch.isObjRef x = false) := by
        simp [h1]
      simp [Orch.checkRetLoop, hc, ih (i + 1), h1]
    · by_cases h2 : Orch.isObjRef x = true
      · have hc : ¬(Orch.isinstance x t = false ∧ Orch.isObjRef x = false) := by
          simp [h2]
        simp [Orch.checkRetLoop, hc, ih (i + 1), h2]
      · have hc : Orch.isinstance x t = false ∧ Orch.isObjRef x = false := by
          simp at h1 h2
          exact ⟨h1, h2⟩
        simp [Orch.checkRetLoop, hc, h1, h2]

/-- The expected-type chain for the signature `[int, None]` yields `int`
at every position, before, at and beyond the sentinel. -/
theorem expectedTypeAt_int_sentinel (i : Nat) :
    Orch.expectedTypeAt [Option.some Orch.PyType.tInt, Option.none] i =
      .ok (Option.some Orch.PyType.tInt) := by
  match i with
  | 0 => rfl
  | 1 => rfl
  | n + 2 => rfl

/-- The argument loop for the signature `[int, None]` accepts every list
of integer literals, from any starting index. -/
theorem checkArgLoop_int_sentinel (ns : List Int) :
    ∀ i, Orch.checkArgLoop [Option.some Orch.PyType.tInt, Option.none]
      (ns.map PyVal.int) i = .ok () := by
  induction ns with
  | nil => intro i; rfl
  | cons n tl ih =>
    intro i
    simp only [List.map, Orch.checkArgLoop, expectedTypeAt_int_sentinel i]
    simp [Orch.isObjRef, Orch.isinstance, ih (i + 1)]

/-- The arity guards for the signature `[int, None]` pass for any
argument count of at least one. -/
theorem checkArity_int_sentinel (n : Nat) (h : 1 ≤ n) :
    Orch.checkArity [Option.some Orch.PyType.tInt, Option.none] n =
      .ok () := by
  match n with
  | 0 => exact absurd h (by omega)
  | 1 => rfl
  | 2 => rfl
  | m + 3 => rfl

/-! ## C5 -/

/-- C5: the claim says a distributed function declared with
`argTypes=[None]` (length-1 variadic sentinel) accepts every argument
list with type checking skipped and in particular never hits the
internal "unreachable" assertion.  In fact the source's expected-type
chain has no case for a length-1 signature whose only entry is the
sentinel: with any non-empty argument list, `check_arguments` executes
`assert False, "This code should be unreachable."`; only the empty
argument list is accepted (the loop body never runs). -/
theorem c5_fully_variadic_signature_hits_unreachable_assert :
    Orch.check_arguments [Option.none] [PyVal.int 7] =
      .error .assertUnreachable ∧
    Orch.check_arguments [Option.none] [PyVal.objref 3] =
      .error .assertUnreachable ∧
    Orch.check_arguments [Option.none] [] = .ok () :=
  ⟨rfl, rfl, rfl⟩

/-! ## C3 -/

/-- C3 counterexample: with declared return arity 1 the per-element type
check is commented out in `check_return_values`, so a result that is
neither an instance of the declared type nor an ObjRef is accepted,
contradicting the claim that the per-element check applies to every
declared return arity including 1. -/
theorem c3_arity_one_result_not_type_checked :
    Orch.check_return_values [Orch.PyType.tInt] (PyVal.str "foo") = .ok () ∧
    Orch.isinstance (PyVal.str "foo") Orch.PyType.tInt = false ∧
    Orch.isObjRef (PyVal.str "foo") = false :=
  ⟨rfl, rfl, rfl⟩

/-- C3 amended: on the executor path, a declared return arity of 1
accepts any result unconditionally (wrapped as a one-element sequence,
with the per-element type check disabled); for any other arity the
result's length must equal the declared arity or the task fails with the
return-arity error, and the validation succeeds exactly when every
returned element satisfies its declared type or is an ObjRef. -/
theorem c3_return_validation_characterised (returnTypes : List Orch.PyType)
    (result : PyVal) :
    (returnTypes.length = 1 →
      Orch.check_return_values returnTypes result = .ok ()) ∧
    (returnTypes.length ≠ 1 →
      ∀ xs, Orch.toSeq result = Option.some xs →
        (xs.length ≠ returnTypes.length →
          Orch.check_return_values returnTypes result =
            .error (.returnArityError returnTypes.length xs.length)) ∧
        (xs.length = returnTypes.length →
          (Orch.check_return_values returnTypes result = .ok () ↔
            ∀ p ∈ returnTypes.zip xs,
              Orch.isinstance p.2 p.1 = true ∨ Orch.isObjRef p.2 = true))) := by
  constructor
  · intro h1
    simp [Orch.check_return_values, h1]
  · intro hne xs hseq
    constructor
    · intro hlen
      simp [Orch.check_return_values, hne, hseq, hlen]
    · intro hlen
      simp [Orch.check_return_values, hne, hseq, hlen, checkRetLoop_ok_iff]

/-- C3 witness: a matching two-element result with one typed value and
one forwarded ObjRef passes validation. -/
theorem c3_return_validation_witness :
    Orch.check_return_values [Orch.PyType.tInt, Orch.PyType.tStr]
      (PyVal.tuple [PyVal.int 1, PyVal.objref 3]) = .ok () := by
  have h := (c3_return_validation_characterised
    [Orch.PyType.tInt, Orch.PyType.tStr]
    (PyVal.tuple [PyVal.int 1, PyVal.objref 3])).2 (by decide)
    [PyVal.int 1, PyVal.objref 3] rfl
  exact (h.2 rfl).mpr (by decide)

/-! ## C6 -/

/-- C6: the claim says `put_object` writes csr/coo decompositions and
dense arrays natively and routes every other runtime type — including
plain dicts — through the generic codec and `putObject`.  The code does
dispatch csr, coo, ndarray and generic values that way, but its
`elif type(value) == dict ...` branch calls `orchpy.lib.put_arrow(value)`
with one argument instead of three, so putting a plain dict raises a
TypeError instead of using the generic path: the claim states the
intent, the code has a slip. -/
theorem c6_put_object_dispatch_and_dict_type_error :
    Orch.put_object Orch.emptyStore 1 (PyVal.dict []) =
      .error (.typeError "put_arrow() takes exactly 3 arguments (1 given)") ∧
    Orch.put_object Orch.emptyStore 1
      (PyVal.dict [(PyVal.str "a", PyVal.int 1)]) =
      .error (.typeError "put_arrow() takes exactly 3 arguments (1 given)") ∧
    Orch.put_object Orch.emptyStore 2
      (PyVal.csrM (PyVal.tuple [PyVal.int 2, PyVal.int 3])
        (PyVal.ndarr (PyVal.list [PyVal.int 5]) "f8")
        (PyVal.ndarr (PyVal.list [PyVal.int 0]) "i4")
        (PyVal.ndarr (PyVal.list [PyVal.int 0, PyVal.int 1]) "i4")) =
      .ok ⟨[(2, .raw (PyVal.dict
        [(PyVal.str "shape", Orch.npArray (PyVal.tuple [PyVal.int 2, PyVal.int 3])),
         (PyVal.str "data", PyVal.ndarr (PyVal.list [PyVal.int 5]) "f8"),
         (PyVal.str "indices", PyVal.ndarr (PyVal.list [PyVal.int 0]) "i4"),
         (PyVal.str "indptr", PyVal.ndarr (PyVal.list [PyVal.int 0, PyVal.int 1]) "i4")]))],
        []⟩ ∧
    Orch.put_object Orch.emptyStore 3
      (PyVal.cooM (PyVal.tuple [PyVal.int 2, PyVal.int 2])
        (PyVal.ndarr (PyVal.list [PyVal.int 0]) "i4")
        (PyVal.ndarr (PyVal.list [PyVal.int 1]) "i4")
        (PyVal.ndarr (PyVal.list [PyVal.int 9]) "f8")) =
      .ok ⟨[(3, .raw (PyVal.dict
        [(PyVal.str "shape", Orch.npArray (PyVal.tuple [PyVal.int 2, PyVal.int 2])),
         (PyVal.str "row", PyVal.ndarr (PyVal.list [PyVal.int 0]) "i4"),
         (PyVal.str "col", PyVal.ndarr (PyVal.list [PyVal.int 1]) "i4"),
         (PyVal.str "data", PyVal.ndarr (PyVal.list [PyVal.int 9]) "f8")]))],
        []⟩ ∧
    Orch.put_object Orch.emptyStore 4
      (PyVal.ndarr (PyVal.list [PyVal.int 1, PyVal.int 2]) "i8") =
      .ok ⟨[(4, .raw (PyVal.ndarr (PyVal.list [PyVal.int 1, PyVal.int 2]) "i8"))],
        []⟩ ∧
    Orch.put_object Orch.emptyStore 5
      (PyVal.instObj "m.C" [(PyVal.str "r", PyVal.objref 7)]) =
      .ok ⟨[(5, .obj (PyVal.instObj "m.C" [(PyVal.str "r", PyVal.objref 7)]) [7])],
        []⟩ := by
  refine ⟨rfl, rfl, rfl, rfl, rfl, ?_⟩
  simp only [Orch.put_object, Orch.orch_serialize, Orch.containedObjRefs,
    Orch.containedObjRefsP, Orch.putObjectPrim]
  simp [Orch.containedObjRefs, Orch.emptyStore]

/-! ## C7 -/

/-- C7: serializing a value whose runtime class was never whitelisted
fails with the unregistered-type error; it never succeeds silently. -/
theorem c7_serialize_unregistered_fails (reg : RaySer.Registry) (v : PyVal)
    (h : assocGet reg.whitelisted_classes (RaySer.classIdentifier v) =
      Option.none) :
    RaySer.serialize reg v =
      .error (.unregisteredType (RaySer.classIdentifier v)) := by
  simp [RaySer.serialize, h]

/-- C7 witness: a plain instance of an unregistered class fails to
serialize against the empty registry. -/
theorem c7_serialize_unregistered_witness :
    assocGet (RaySer.Registry.whitelisted_classes ⟨[], [], [], []⟩)
      (RaySer.classIdentifier (PyVal.instObj "m.Z" [])) = Option.none ∧
    RaySer.serialize ⟨[], [], [], []⟩ (PyVal.instObj "m.Z" []) =
      .error (.unregisteredType "m.Z") :=
  ⟨rfl, c7_serialize_unregistered_fails ⟨[], [], [], []⟩
    (PyVal.instObj "m.Z" []) rfl⟩

/-! ## C10 -/

/-- C10: the raw branch of `get_object` returns the payload unchanged
unless it is a dict of exactly 4 entries containing the csr key set
(`shape`/`data`/`indices`/`indptr`, checked first) or the coo key set
(`shape`/`row`/`col`/`data`), in which case it always reconstructs the
corresponding sparse matrix from the fields — such a payload is never
returned as a plain dict. -/
theorem c10_get_object_raw_characterised (d : PyVal) :
    ((∀ entries, d ≠ PyVal.dict entries) → Orch.get_object_raw d = d) ∧
    (∀ entries, d = PyVal.dict entries →
      (entries.length ≠ 4 → Orch.get_object_raw d = d) ∧
      (entries.length = 4 →
        ((["shape", "data", "indices", "indptr"].all fun k =>
            PyVal.dHasKey entries (.str k)) = true →
          Orch.get_object_raw d =
            PyVal.csrM (Orch.dGetD entries "shape") (Orch.dGetD entries "data")
              (Orch.dGetD entries "indices") (Orch.dGetD entries "indptr")) ∧
        ((["shape", "data", "indices", "indptr"].all fun k =>
            PyVal.dHasKey entries (.str k)) = false →
          (["shape", "row", "col", "data"].all fun k =>
            PyVal.dHasKey entries (.str k)) = true →
          Orch.get_object_raw d =
            PyVal.cooM (Orch.dGetD entries "shape") (Orch.dGetD entries "row")
              (Orch.dGetD entries "col") (Orch.dGetD entries "data")) ∧
        ((["shape", "data", "indices", "indptr"].all fun k =>
            PyVal.dHasKey entries (.str k)) = false →
          (["shape", "row", "col", "data"].all fun k =>
            PyVal.dHasKey entries (.str k)) = false →
          Orch.get_object_raw d = d))) := by
  constructor
  · intro h
    cases d <;> first | rfl | exact absurd rfl (h _)
  · intro entries hd
    subst hd
    refine ⟨fun hlen => by simp [Orch.get_object_raw, hlen], fun hlen => ?_⟩
    refine ⟨fun hcsr => by simp [Orch.get_object_raw, hlen, hcsr],
      fun hcsr hcoo => by simp [Orch.get_object_raw, hlen, hcsr, hcoo],
      fun hcsr hcoo => by simp [Orch.get_object_raw, hlen, hcsr, hcoo]⟩

/-- C10 witness: a 4-entry csr-keyed dict is rebuilt as a `csr_matrix`,
and a non-dict payload passes through unchanged. -/
theorem c10_get_object_raw_witness :
    Orch.get_object_raw (PyVal.dict
      [(PyVal.str "shape", PyVal.int 0), (PyVal.str "data", PyVal.int 1),
       (PyVal.str "indices", PyVal.int 2), (PyVal.str "indptr", PyVal.int 3)]) =
      PyVal.csrM (PyVal.int 0) (PyVal.int 1) (PyVal.int 2) (PyVal.int 3) ∧
    Orch.get_object_raw (PyVal.int 5) = PyVal.int 5 := by
  constructor
  · have h := (((c10_get_object_raw_characterised (PyVal.dict
      [(PyVal.str "shape", PyVal.int 0), (PyVal.str "data", PyVal.int 1),
       (PyVal.str "indices", PyVal.int 2), (PyVal.str "indptr", PyVal.int 3)])).2
      [(PyVal.str "shape", PyVal.int 0), (PyVal.str "data", PyVal.int 1),
       (PyVal.str "indices", PyVal.int 2), (PyVal.str "indptr", PyVal.int 3)]
      rfl).2 rfl).1
      (by simp [PyVal.dHasKey, PyVal.dGet, pyEqb])
    rw [h]
    simp [Orch.dGetD, PyVal.dGet, pyEqb]
  · exact (c10_get_object_raw_characterised (PyVal.int 5)).1
      (fun es h => PyVal.noConfusion h)

/-! ## C8 -/

/-- C8: a distributed function declared `argTypes=[int, None]` accepts
every call with at least one integer argument — every position,
including those at and beyond the sentinel, is checked against `int`
(third conjunct) and passes — while a call with no arguments fails with
the at-least arity error. -/
theorem c8_variadic_int_signature_accepts_all_ints :
    (∀ ns : List Int, ns ≠ [] →
      Orch.check_arguments [Option.some Orch.PyType.tInt, Option.none]
        (ns.map PyVal.int) = .ok ()) ∧
    Orch.check_arguments [Option.some Orch.PyType.tInt, Option.none] [] =
      .error (.arityAtLeastError 1 0) ∧
    (∀ i, Orch.expectedTypeAt [Option.some Orch.PyType.tInt, Option.none] i =
      .ok (Option.some Orch.PyType.tInt)) := by
  refine ⟨?_, rfl, expectedTypeAt_int_sentinel⟩
  intro ns hne
  have h1 : 1 ≤ (ns.map PyVal.int).length := by
    rw [List.length_map]
    exact List.length_pos.mpr hne
  simp only [Orch.check_arguments, checkArity_int_sentinel _ h1]
  exact checkArgLoop_int_sentinel ns 0

/-- C8 witness: three integer arguments are accepted. -/
theorem c8_variadic_int_signature_witness :
    Orch.check_arguments [Option.some Orch.PyType.tInt, Option.none]
      ([(2 : Int), 3, 4].map PyVal.int) = .ok () :=
  c8_variadic_int_signature_accepts_all_ints.1 [2, 3, 4] (by decide)

/-! ## C4 -/

/-- C4: registering a class whose shape violates the serializability
precondition (not a namedtuple, and missing `__new__`, raising on bare
allocation, lacking `__dict__`, or using `__slots__`), with neither the
pickle fallback nor a custom serializer, fails with an
unserializable-type error raised by the registration call itself — the
class is not added, so nothing is deferred to serialization time.  The
public registration entry point is modelled from the spec (§4.1); the
precondition check and whitelist update are the embedded source
functions. -/
theorem c4_bad_shape_registration_hard_error (reg : RaySer.Registry)
    (cls : RaySer.ClassShape)
    (hnt : RaySer.is_named_tuple cls = false)
    (hbad : cls.hasNew = false ∨ cls.newRaises = true ∨
      cls.instHasDict = false ∨ cls.hasSlots = true) :
    ∃ reason,
      RaySer.check_serializable cls = .error (.unserializable reason) ∧
      RaySer.register_class reg cls false Option.none Option.none =
        .error (.unserializable reason) := by
  have hreg : ∀ e, RaySer.check_serializable cls = .error e →
      RaySer.register_class reg cls false Option.none Option.none =
        .error e := by
    intro e he
    simp [RaySer.register_class, he]
  by_cases hn : cls.hasNew = true
  · by_cases hr : cls.newRaises = true
    · have hc : RaySer.check_serializable cls =
          .error (.unserializable "overridden __new__") := by
        simp [RaySer.check_serializable, hnt, hn, hr]
      exact ⟨_, hc, hreg _ hc⟩
    · by_cases hd : cls.instHasDict = true
      · by_cases hs : cls.hasSlots = true
        · have hc : RaySer.check_serializable cls =
              .error (.unserializable "uses __slots__") := by
            simp [RaySer.check_serializable, hnt, hn, hr, hd, hs]
          exact ⟨_, hc, hreg _ hc⟩
        · rcases hbad with h | h | h | h <;> simp_all
      · have hc : RaySer.check_serializable cls =
            .error (.unserializable "no __dict__ attribute") := by
          simp [RaySer.check_serializable, hnt, hn, hr, hd]
        exact ⟨_, hc, hreg _ hc⟩
  · have hc : RaySer.check_serializable cls =
        .error (.unserializable "no __new__ attribute (old-style class)") := by
      simp [RaySer.check_serializable, hnt, hn]
    exact ⟨_, hc, hreg _ hc⟩

/-- C4 witness: a slot-using class is rejected by the registration
call. -/
theorem c4_bad_shape_registration_witness :
    RaySer.register_class ⟨[], [], [], []⟩
      ⟨"m.S", ["object"], Option.none, true, false, true, true⟩ false
      Option.none Option.none = .error (.unserializable "uses __slots__") := by
  obtain ⟨r, hchk, hreg⟩ := c4_bad_shape_registration_hard_error
    ⟨[], [], [], []⟩
    ⟨"m.S", ["object"], Option.none, true, false, true, true⟩ rfl
    (Or.inr (Or.inr (Or.inr rfl)))
  have h3 : RaySer.check_serializable
      (⟨"m.S", ["object"], Option.none, true, false, true, true⟩ :
        RaySer.ClassShape) = .error (.unserializable "uses __slots__") := rfl
  rw [hchk] at h3
  simp only [Except.error.injEq, PyErr.unserializable.injEq] at h3
  rw [← h3]
  exact hreg

/-! ## C2 -/

/-- Lookup after consing an entry with the looked-up key. -/
theorem assocGet_cons_self {κ α : Type} [DecidableEq κ]
    (l : List (κ × α)) (k : κ) (v : α) :
    assocGet ((k, v) :: l) k = Option.some v := by
  simp [assocGet]

/-- Lookup after consing an entry with a different key. -/
theorem assocGet_cons_ne {κ α : Type} [DecidableEq κ]
    (l : List (κ × α)) (k' k : κ) (v : α) (h : k' ≠ k) :
    assocGet ((k', v) :: l) k = assocGet l k := by
  simp [assocGet, h]

/-- On every value except a plain dict, `Worker.put_object` succeeds and
writes exactly the `putItem` entry for the value. -/
theorem put_object_eq_putItem (st : Orch.ObjStore) (r : Nat) (v : PyVal)
    (h : ∀ es, v ≠ PyVal.dict es) :
    Orch.put_object st r v =
      .ok ⟨(r, Orch.putItem v) :: st.vals, st.aliases⟩ := by
  cases v <;> first | rfl | exact absurd rfl (h _)

/-- Unfolding of the publishing loop on an ObjRef output: it aliases. -/
theorem store_outputs_loop_cons_ref (st : Orch.ObjStore) (r0 t : Nat)
    (rest : List (Nat × PyVal)) :
    Orch.store_outputs_loop st ((r0, PyVal.objref t) :: rest) =
      Orch.store_outputs_loop (Orch.alias_objrefs st r0 t) rest := rfl

/-- Unfolding of the publishing loop on a non-ObjRef output: it goes
through `Worker.put_object`. -/
theorem store_outputs_loop_cons_nonref (st : Orch.ObjStore) (r0 : Nat)
    (out : PyVal) (rest : List (Nat × PyVal))
    (h : ∀ t, out ≠ PyVal.objref t) :
    Orch.store_outputs_loop st ((r0, out) :: rest) =
      match Orch.put_object st r0 out with
      | .error e => .error e
      | .ok st1 => Orch.store_outputs_loop st1 rest := by
  cases out <;> first | (exact absurd rfl (h _)) | rfl

/-- Specification of the publishing loop: under fresh, distinct
returnRefs and dict-free non-ObjRef outputs, the loop succeeds; each
ObjRef output leaves its returnRef aliased with no direct write, each
other output is written directly with no alias, and refs outside the
batch are untouched. -/
theorem store_outputs_loop_spec :
    ∀ (pairs : List (Nat × PyVal)) (st : Orch.ObjStore),
      (pairs.map Prod.fst).Nodup →
      (∀ p ∈ pairs, assocGet st.vals p.1 = Option.none) →
      (∀ p ∈ pairs, assocGet st.aliases p.1 = Option.none) →
      (∀ p ∈ pairs, ∀ es, p.2 ≠ PyVal.dict es) →
      ∃ st', Orch.store_outputs_loop st pairs = .ok st' ∧
        (∀ p ∈ pairs,
          (∀ t, p.2 = PyVal.objref t →
            assocGet st'.aliases p.1 = Option.some t ∧
            assocGet st'.vals p.1 = Option.none) ∧
          (Orch.isObjRef p.2 = false →
            assocGet st'.vals p.1 = Option.some (Orch.putItem p.2) ∧
            assocGet st'.aliases p.1 = Option.none)) ∧
        (∀ r, r ∉ pairs.map Prod.fst →
          assocGet st'.vals r = assocGet st.vals r ∧
          assocGet st'.aliases r = assocGet st.aliases r) := by
  intro pairs
  induction pairs with
  | nil =>
    intro st _ _ _ _
    exact ⟨st, rfl, by simp, fun r _ => ⟨rfl, rfl⟩⟩
  | cons hd rest ih =>
    intro st hnodup hfv hfa hnd
    obtain ⟨r0, out⟩ := hd
    have hr0 : r0 ∉ rest.map Prod.fst := by
      simp only [List.map_cons, List.nodup_cons] at hnodup
      exact hnodup.1
    have hrest_nodup : (rest.map Prod.fst).Nodup := by
      simp only [List.map_cons, List.nodup_cons] at hnodup
      exact hnodup.2
    by_cases hobj : ∃ t, out = PyVal.objref t
    · obtain ⟨t, rfl⟩ := hobj
      have hfv' : ∀ p ∈ rest,
          assocGet (Orch.alias_objrefs st r0 t).vals p.1 = Option.none :=
        fun p hp => hfv p (List.mem_cons_of_mem _ hp)
      have hfa' : ∀ p ∈ rest,
          assocGet (Orch.alias_objrefs st r0 t).aliases p.1 = Option.none := by
        intro p hp
        have hne : r0 ≠ p.1 := by
          intro he
          exact hr0 (he ▸ List.mem_map_of_mem Prod.fst hp)
        show assocGet ((r0, t) :: st.aliases) p.1 = Option.none
        rw [assocGet_cons_ne _ _ _ _ hne]
        exact hfa p (List.mem_cons_of_mem _ hp)
      obtain ⟨st', hloop, hmem, hframe⟩ := ih (Orch.alias_objrefs st r0 t)
        hrest_nodup hfv' hfa'
        (fun p hp => hnd p (List.mem_cons_of_mem _ hp))
      refine ⟨st', (store_outputs_loop_cons_ref st r0 t rest).trans hloop,
        ?_, ?_⟩
      · intro p hp
        rcases List.mem_cons.mp hp with rfl | hp'
        · constructor
          · intro t' ht'
            injection ht' with h1
            subst h1
            obtain ⟨hfr1, hfr2⟩ := hframe r0 hr0
            refine ⟨?_, ?_⟩
            · rw [hfr2]
              exact assocGet_cons_self st.aliases r0 t
            · rw [hfr1]
              exact hfv (r0, PyVal.objref t) (List.mem_cons_self _ _)
          · intro hfalse
            simp [Orch.isObjRef] at hfalse
        · exact hmem p hp'
      · intro r hr
        have hr' : r ∉ rest.map Prod.fst := by
          intro hmem'
          exact hr (by simp [hmem'])
        have hrne : r0 ≠ r := by
          intro he
          exact hr (by simp [he])
        obtain ⟨hfr1, hfr2⟩ := hframe r hr'
        refine ⟨hfr1, ?_⟩
        rw [hfr2]
        show assocGet ((r0, t) :: st.aliases) r = assocGet st.aliases r
        exact assocGet_cons_ne _ _ _ _ hrne
    · have hnref : ∀ t, out ≠ PyVal.objref t :=
        fun t ht => hobj ⟨t, ht⟩
      have hndhd : ∀ es, out ≠ PyVal.dict es :=
        hnd (r0, out) (List.mem_cons_self _ _)
      have hput := put_object_eq_putItem st r0 out hndhd
      have hstep : Orch.store_outputs_loop st ((r0, out) :: rest) =
          Orch.store_outputs_loop
            ⟨(r0, Orch.putItem out) :: st.vals, st.aliases⟩ rest := by
        rw [store_outputs_loop_cons_nonref st r0 out rest hnref, hput]
      have hfv' : ∀ p ∈ rest,
          assocGet ((r0, Orch.putItem out) :: st.vals) p.1 = Option.none := by
        intro p hp
        have hne : r0 ≠ p.1 := by
          intro he
          exact hr0 (he ▸ List.mem_map_of_mem Prod.fst hp)
        rw [assocGet_cons_ne _ _ _ _ hne]
        exact hfv p (List.mem_cons_of_mem _ hp)
      have hfa' : ∀ p ∈ rest, assocGet st.aliases p.1 = Option.none :=
        fun p hp => hfa p (List.mem_cons_of_mem _ hp)
      obtain ⟨st', hloop, hmem, hframe⟩ :=
        ih ⟨(r0, Orch.putItem out) :: st.vals, st.aliases⟩
          hrest_nodup hfv' hfa'
          (fun p hp => hnd p (List.mem_cons_of_mem _ hp))
      refine ⟨st', hstep.trans hloop, ?_, ?_⟩
      · intro p hp
        rcases List.mem_cons.mp hp with rfl | hp'
        · constructor
          · intro t' ht'
            exact absurd ht' (hnref t')
          · intro _
            obtain ⟨hfr1, hfr2⟩ := hframe r0 hr0
            refine ⟨?_, ?_⟩
            · rw [hfr1]
              exact assocGet_cons_self st.vals r0 (Orch.putItem out)
            · rw [hfr2]
              exact hfa (r0, out) (List.mem_cons_self _ _)
        · exact hmem p hp'
      · intro r hr
        have hr' : r ∉ rest.map Prod.fst := by
          intro hmem'
          exact hr (by simp [hmem'])
        have hrne : r0 ≠ r := by
          intro he
          exact hr (by simp [he])
        obtain ⟨hfr1, hfr2⟩ := hframe r hr'
        refine ⟨?_, hfr2⟩
        rw [hfr1]
        exact assocGet_cons_ne _ _ _ _ hrne

/-- C2 counterexample: the claim says a non-ObjRef output is always
written under its returnRef, but publishing a plain-dict output crashes
in `Worker.put_object` (its dict branch mis-calls `put_arrow` with one
argument), so nothing is written. -/
theorem c2_dict_output_publish_fails :
    Orch.store_outputs_in_objstore Orch.emptyStore [5] (PyVal.dict []) =
      .error (.typeError "put_arrow() takes exactly 3 arguments (1 given)") :=
  rfl

/-- C2 amended: when a task's outputs are published to fresh, distinct
returnRefs and every non-ObjRef output is not a plain dict (the case on
which the `put_object` slip raises), publishing succeeds and for each
position: an ObjRef output leaves the returnRef aliased to it — no
direct write is ever performed to that returnRef, and resolving the
returnRef continues, transitively, through whatever the output ref
resolves to — while every other output is written directly under the
returnRef (and not aliased). -/
theorem c2_publish_aliases_refs_and_writes_values (st : Orch.ObjStore)
    (objrefs : List Nat) (outputs : PyVal) (xs : List PyVal)
    (hseq : Orch.toSeq (if objrefs.length = 1 then PyVal.tuple [outputs]
      else outputs) = Option.some xs)
    (hlen : objrefs.length ≤ xs.length)
    (hnodup : objrefs.Nodup)
    (hfreshv : ∀ r ∈ objrefs, assocGet st.vals r = Option.none)
    (hfresha : ∀ r ∈ objrefs, assocGet st.aliases r = Option.none)
    (hnodict : ∀ p ∈ objrefs.zip xs, ∀ es, p.2 ≠ PyVal.dict es) :
    ∃ st', Orch.store_outputs_in_objstore st objrefs outputs = .ok st' ∧
      ∀ p ∈ objrefs.zip xs,
        (∀ t, p.2 = PyVal.objref t →
          assocGet st'.aliases p.1 = Option.some t ∧
          assocGet st'.vals p.1 = Option.none ∧
          ∀ fuel, Orch.resolve st' (fuel + 1) p.1 =
            Orch.resolve st' fuel t) ∧
        (Orch.isObjRef p.2 = false →
          assocGet st'.vals p.1 = Option.some (Orch.putItem p.2) ∧
          assocGet st'.aliases p.1 = Option.none) := by
  have hmapfst : (objrefs.zip xs).map Prod.fst = objrefs :=
    List.map_fst_zip _ _ hlen
  have hznodup : ((objrefs.zip xs).map Prod.fst).Nodup := by
    rw [hmapfst]
    exact hnodup
  have hfv : ∀ p ∈ objrefs.zip xs, assocGet st.vals p.1 = Option.none := by
    intro p hp
    refine hfreshv p.1 ?_
    rw [← hmapfst]
    exact List.mem_map_of_mem Prod.fst hp
  have hfa : ∀ p ∈ objrefs.zip xs, assocGet st.aliases p.1 = Option.none := by
    intro p hp
    refine hfresha p.1 ?_
    rw [← hmapfst]
    exact List.mem_map_of_mem Prod.fst hp
  obtain ⟨st', hloop, hmem, _⟩ :=
    store_outputs_loop_spec (objrefs.zip xs) st hznodup hfv hfa hnodict
  refine ⟨st', ?_, ?_⟩
  · simp only [Orch.store_outputs_in_objstore, hseq]
    rw [if_neg (by omega)]
    exact hloop
  · intro p hp
    obtain ⟨h1, h2⟩ := hmem p hp
    refine ⟨?_, h2⟩
    intro t ht
    obtain ⟨ha, hv⟩ := h1 t ht
    refine ⟨ha, hv, ?_⟩
    intro fuel
    simp [Orch.resolve, ha]

/-- C2 witness: publishing the outputs `(ObjRef 9, 5)` to the fresh
returnRefs `[1, 2]` aliases the first and writes the second. -/
theorem c2_publish_witness :
    ∃ st', Orch.store_outputs_in_objstore Orch.emptyStore [1, 2]
        (PyVal.tuple [PyVal.objref 9, PyVal.int 5]) = .ok st' ∧
      ∀ p ∈ [1, 2].zip [PyVal.objref 9, PyVal.int 5],
        (∀ t, p.2 = PyVal.objref t →
          assocGet st'.aliases p.1 = Option.some t ∧
          assocGet st'.vals p.1 = Option.none ∧
          ∀ fuel, Orch.resolve st' (fuel + 1) p.1 =
            Orch.resolve st' fuel t) ∧
        (Orch.isObjRef p.2 = false →
          assocGet st'.vals p.1 = Option.some (Orch.putItem p.2) ∧
          assocGet st'.aliases p.1 = Option.none) :=
  c2_publish_aliases_refs_and_writes_values Orch.emptyStore [1, 2]
    (PyVal.tuple [PyVal.objref 9, PyVal.int 5])
    [PyVal.objref 9, PyVal.int 5] rfl (by simp) (by decide)
    (fun r _ => rfl) (fun r _ => rfl)
    (by
      intro p hp
      simp only [List.zip_cons_cons, List.zip_nil_right, List.mem_cons,
        List.not_mem_nil, or_false] at hp
      rcases hp with rfl | rfl <;> intro es h <;> exact PyVal.noConfusion h)

/-! ## C1 -/

/-- Setting a key absent from a model dictionary appends the entry. -/
theorem dSet_append_of_keys_ne (d : List (PyVal × PyVal)) (k v : PyVal)
    (h : ∀ p ∈ d, pyEqb p.1 k = false) :
    PyVal.dSet d k v = d ++ [(k, v)] := by
  induction d with
  | nil => rfl
  | cons hd tl ih =>
    obtain ⟨k', v'⟩ := hd
    have hk : pyEqb k' k = false := h (k', v') (List.mem_cons_self _ _)
    simp [PyVal.dSet, hk, ih fun p hp => h p (List.mem_cons_of_mem _ hp)]

/-- Lookup skips a prefix none of whose keys match. -/
theorem dGet_append_right (d e : List (PyVal × PyVal)) (k : PyVal)
    (h : ∀ p ∈ d, pyEqb p.1 k = false) :
    PyVal.dGet (d ++ e) k = PyVal.dGet e k := by
  induction d with
  | nil => rfl
  | cons hd tl ih =>
    obtain ⟨k', v'⟩ := hd
    have hk : pyEqb k' k = false := h (k', v') (List.mem_cons_self _ _)
    simp [PyVal.dGet, hk, ih fun p hp => h p (List.mem_cons_of_mem _ hp)]

/-- Popping a key present only as the appended last entry restores the
original dictionary. -/
theorem dPop_append_of_keys_ne (d : List (PyVal × PyVal)) (k v : PyVal)
    (hkk : pyEqb k k = true)
    (h : ∀ p ∈ d, pyEqb p.1 k = false) :
    PyVal.dPop (d ++ [(k, v)]) k = d := by
  induction d with
  | nil => simp [PyVal.dPop, hkk]
  | cons hd tl ih =>
    obtain ⟨k', v'⟩ := hd
    have hk : pyEqb k' k = false := h (k', v') (List.mem_cons_self _ _)
    simp [PyVal.dPop, hk, ih fun p hp => h p (List.mem_cons_of_mem _ hp)]

/-- Zipping the projections of a pair list restores the list. -/
theorem zip_map_fst_snd_eq {α β : Type} (l : List (α × β)) :
    (l.map Prod.fst).zip (l.map Prod.snd) = l := by
  induction l with
  | nil => rfl
  | cons hd tl ih => simp [ih]

/-- A class with recorded namedtuple field names satisfies
`is_named_tuple`. -/
theorem is_named_tuple_of_ntFieldNames (cls : RaySer.ClassShape)
    (names : List String)
    (h : RaySer.ntFieldNames cls = Option.some names) :
    RaySer.is_named_tuple cls = true := by
  by_cases hnt : RaySer.is_named_tuple cls = true
  · exact hnt
  · rw [RaySer.ntFieldNames, if_neg hnt] at h
    exact Option.noConfusion h

/-- C1 counterexample: an instance whose attribute map uses the reserved
key `_pytype_` does not round-trip — serialization overwrites the
attribute with the class tag and deserialization pops it, so the
attribute is lost. -/
theorem c1_reserved_key_breaks_roundtrip :
    (RaySer.serialize RaySer.registryA
      (PyVal.instObj "m.A" [(PyVal.str "_pytype_", PyVal.int 5)])).bind
      (RaySer.deserialize RaySer.registryA) =
      .ok (PyVal.instObj "m.A" []) ∧
    PyVal.instObj "m.A" [] ≠
      PyVal.instObj "m.A" [(PyVal.str "_pytype_", PyVal.int 5)] := by
  constructor
  · have h1 : RaySer.serialize RaySer.registryA
        (PyVal.instObj "m.A" [(PyVal.str "_pytype_", PyVal.int 5)]) =
        .ok (PyVal.dict [(PyVal.str "_pytype_", PyVal.str "m.A")]) := by
      simp [RaySer.serialize, RaySer.registryA, RaySer.add_class_to_whitelist,
        RaySer.plainClassA, assocGet, assocSet, RaySer.classIdentifier,
        RaySer.is_named_tuple, RaySer.objDict, PyVal.dSet, pyEqb]
    rw [h1]
    show RaySer.deserialize RaySer.registryA
      (PyVal.dict [(PyVal.str "_pytype_", PyVal.str "m.A")]) =
      .ok (PyVal.instObj "m.A" [])
    simp [RaySer.deserialize, RaySer.registryA, RaySer.add_class_to_whitelist,
      RaySer.plainClassA, assocGet, assocSet, PyVal.dGet, PyVal.dHasKey,
      PyVal.dPop, pyEqb]
  · simp

/-- C1 amended: for every registered type, `deserialize(serialize(v))`
is value-equal to `v` on each of the three paths — the pickle fallback
unconditionally, a custom serializer/deserializer pair whenever the
stored deserializer inverts the stored serializer on `v`, and the
structural attribute-map path (including the namedtuple
constructor-arguments case) provided the value's attribute map does not
use the reserved keys `_pytype_` and `_ray_getnewargs_` (the
counterexample shows an attribute named `_pytype_` is lost). -/
theorem c1_roundtrip_on_reserved_free_values (reg : RaySer.Registry)
    (v : PyVal) (cls : RaySer.ClassShape)
    (hw : assocGet reg.whitelisted_classes (RaySer.classIdentifier v) =
      Option.some cls) :
    (RaySer.classIdentifier v ∈ reg.classes_to_pickle →
      (RaySer.serialize reg v).bind (RaySer.deserialize reg) = .ok v) ∧
    (∀ f g, RaySer.classIdentifier v ∉ reg.classes_to_pickle →
      assocGet reg.custom_serializers (RaySer.classIdentifier v) =
        Option.some f →
      assocGet reg.custom_deserializers (RaySer.classIdentifier v) =
        Option.some (Option.some g) →
      g (f v) = v →
      (RaySer.serialize reg v).bind (RaySer.deserialize reg) = .ok v) ∧
    (∀ cid attrs, v = PyVal.instObj cid attrs →
      cid ∉ reg.classes_to_pickle →
      assocGet reg.custom_serializers cid = Option.none →
      assocGet reg.custom_deserializers cid = Option.none →
      RaySer.is_named_tuple cls = false →
      (∀ p ∈ attrs, pyEqb p.1 (PyVal.str "_pytype_") = false) →
      (∀ p ∈ attrs, pyEqb p.1 (PyVal.str "_ray_getnewargs_") = false) →
      (RaySer.serialize reg v).bind (RaySer.deserialize reg) = .ok v) ∧
    (∀ cid fields names, v = PyVal.namedTup cid fields →
      cid ∉ reg.classes_to_pickle →
      assocGet reg.custom_serializers cid = Option.none →
      assocGet reg.custom_deserializers cid = Option.none →
      RaySer.ntFieldNames cls = Option.some names →
      fields.map Prod.fst = names.map PyVal.str →
      (∀ p ∈ fields, pyEqb p.1 (PyVal.str "_pytype_") = false) →
      (∀ p ∈ fields, pyEqb p.1 (PyVal.str "_ray_getnewargs_") = false) →
      (RaySer.serialize reg v).bind (RaySer.deserialize reg) = .ok v) := by
  refine ⟨?_, ?_, ?_, ?_⟩
  · -- pickle path
    intro hp
    have hser : RaySer.serialize reg v = .ok (PyVal.dict
        [(PyVal.str "data", RaySer.pickling_dumps v),
         (PyVal.str "_pytype_", PyVal.str (RaySer.classIdentifier v))]) := by
      simp [RaySer.serialize, hw, hp, PyVal.dSet, pyEqb]
    rw [hser]
    show RaySer.deserialize reg (PyVal.dict
      [(PyVal.str "data", RaySer.pickling_dumps v),
       (PyVal.str "_pytype_", PyVal.str (RaySer.classIdentifier v))]) =
      .ok v
    simp [RaySer.deserialize, hw, hp, PyVal.dGet, pyEqb,
      RaySer.pickling_dumps, RaySer.pickling_loads]
  · -- custom codec path
    intro f g hnp hs hd hinv
    have hser : RaySer.serialize reg v = .ok (PyVal.dict
        [(PyVal.str "data", f v),
         (PyVal.str "_pytype_", PyVal.str (RaySer.classIdentifier v))]) := by
      simp [RaySer.serialize, hw, hnp, hs, PyVal.dSet, pyEqb]
    rw [hser]
    show RaySer.deserialize reg (PyVal.dict
      [(PyVal.str "data", f v),
       (PyVal.str "_pytype_", PyVal.str (RaySer.classIdentifier v))]) =
      .ok v
    simp [RaySer.deserialize, hw, hnp, hd, PyVal.dGet, pyEqb, hinv]
  · -- structural path, plain instance
    intro cid attrs hv hnp hs hd hnt hk1 hk2
    subst hv
    have hw' : assocGet reg.whitelisted_classes cid = Option.some cls := hw
    have hser : RaySer.serialize reg (PyVal.instObj cid attrs) =
        .ok (PyVal.dict (attrs ++ [(PyVal.str "_pytype_", PyVal.str cid)])) := by
      simp [RaySer.serialize, RaySer.classIdentifier, hw', hnp, hs,
        RaySer.objDict, hnt, dSet_append_of_keys_ne attrs _ _ hk1]
    have hget : PyVal.dGet (attrs ++ [(PyVal.str "_pytype_", PyVal.str cid)])
        (PyVal.str "_pytype_") = Option.some (PyVal.str cid) := by
      rw [dGet_append_right _ _ _ hk1]
      simp [PyVal.dGet, pyEqb]
    have hhk : PyVal.dHasKey (attrs ++ [(PyVal.str "_pytype_", PyVal.str cid)])
        (PyVal.str "_ray_getnewargs_") = false := by
      rw [PyVal.dHasKey, dGet_append_right _ _ _ hk2]
      simp [PyVal.dGet, pyEqb]
    have hpop : PyVal.dPop (attrs ++ [(PyVal.str "_pytype_", PyVal.str cid)])
        (PyVal.str "_pytype_") = attrs :=
      dPop_append_of_keys_ne attrs _ _ (by simp [pyEqb]) hk1
    rw [hser]
    show RaySer.deserialize reg
      (PyVal.dict (attrs ++ [(PyVal.str "_pytype_", PyVal.str cid)])) =
      .ok (PyVal.instObj cid attrs)
    simp [RaySer.deserialize, hget, hw', hnp, hd, hhk, hpop]
  · -- structural path, namedtuple
    intro cid fields names hv hnp hs hd hfn hnames hk1 hk2
    subst hv
    have hw' : assocGet reg.whitelisted_classes cid = Option.some cls := hw
    have hnt := is_named_tuple_of_ntFieldNames cls names hfn
    have hlen : names.length = (fields.map Prod.snd).length := by
      have h1 : (fields.map Prod.fst).length = (names.map PyVal.str).length := by
        rw [hnames]
      simp only [List.length_map] at h1 ⊢
      omega
    have hmix : ∀ p ∈ fields ++ [(PyVal.str "_ray_getnewargs_",
        PyVal.tuple (fields.map Prod.snd))],
        pyEqb p.1 (PyVal.str "_pytype_") = false := by
      intro p hp
      rcases List.mem_append.mp hp with h | h
      · exact hk1 p h
      · simp only [List.mem_singleton] at h
        subst h
        simp [pyEqb]
    have hser : RaySer.serialize reg (PyVal.namedTup cid fields) =
        .ok (PyVal.dict (fields ++
          [(PyVal.str "_ray_getnewargs_", PyVal.tuple (fields.map Prod.snd)),
           (PyVal.str "_pytype_", PyVal.str cid)])) := by
      simp [RaySer.serialize, RaySer.classIdentifier, hw', hnp, hs,
        RaySer.objDict, hnt, RaySer.getnewargs,
        dSet_append_of_keys_ne fields _ _ hk2,
        dSet_append_of_keys_ne _ _ _ hmix]
    have hget : PyVal.dGet (fields ++
        [(PyVal.str "_ray_getnewargs_", PyVal.tuple (fields.map Prod.snd)),
         (PyVal.str "_pytype_", PyVal.str cid)])
        (PyVal.str "_pytype_") = Option.some (PyVal.str cid) := by
      rw [dGet_append_right _ _ _ hk1]
      simp [PyVal.dGet, pyEqb]
    have hhk : PyVal.dHasKey (fields ++
        [(PyVal.str "_ray_getnewargs_", PyVal.tuple (fields.map Prod.snd)),
         (PyVal.str "_pytype_", PyVal.str cid)])
        (PyVal.str "_ray_getnewargs_") = true := by
      rw [PyVal.dHasKey, dGet_append_right _ _ _ hk2]
      simp [PyVal.dGet, pyEqb]
    have hgetg : PyVal.dGet (fields ++
        [(PyVal.str "_ray_getnewargs_", PyVal.tuple (fields.map Prod.snd)),
         (PyVal.str "_pytype_", PyVal.str cid)])
        (PyVal.str "_ray_getnewargs_") =
        Option.some (PyVal.tuple (fields.map Prod.snd)) := by
      rw [dGet_append_right _ _ _ hk2]
      simp [PyVal.dGet, pyEqb]
    rw [hser]
    show RaySer.deserialize reg (PyVal.dict (fields ++
      [(PyVal.str "_ray_getnewargs_", PyVal.tuple (fields.map Prod.snd)),
       (PyVal.str "_pytype_", PyVal.str cid)])) =
      .ok (PyVal.namedTup cid fields)
    simp only [RaySer.deserialize, hget, hw', hnp, hd, hhk, hgetg, hfn, hlen]
    simp [if_pos hlen, ← hnames, zip_map_fst_snd_eq]

/-- C1 witness: a plain instance with one ordinary attribute
round-trips on the structural path of the fixture registry. -/
theorem c1_roundtrip_witness :
    (RaySer.serialize RaySer.registryA
      (PyVal.instObj "m.A" [(PyVal.str "x", PyVal.int 1)])).bind
      (RaySer.deserialize RaySer.registryA) =
      .ok (PyVal.instObj "m.A" [(PyVal.str "x", PyVal.int 1)]) := by
  have h := (c1_roundtrip_on_reserved_free_values RaySer.registryA
    (PyVal.instObj "m.A" [(PyVal.str "x", PyVal.int 1)])
    RaySer.plainClassA rfl).2.2.1 "m.A" [(PyVal.str "x", PyVal.int 1)] rfl
    (by simp [RaySer.registryA, RaySer.add_class_to_whitelist,
      RaySer.plainClassA]) rfl rfl rfl
    (by
      intro p hp
      simp only [List.mem_singleton] at hp
      subst hp
      simp [pyEqb])
    (by
      intro p hp
      simp only [List.mem_singleton] at hp
      subst hp
      simp [pyEqb])
  exact h

/-! ## C9 infrastructure: digits and numbers -/

/-- The digit characters are digits. -/
theorem digitChar_isDigit (n : Nat) (h : n < 10) :
    RaySer.isDigit (RaySer.digitChar n) = true := by
  interval_cases n <;> decide

/-- Reading a digit character back yields its value. -/
theorem digitVal_digitChar (n : Nat) (h : n < 10) :
    RaySer.digitVal (RaySer.digitChar n) = n := by
  interval_cases n <;> decide

/-- A digit character is none of the characters the parser treats
specially. -/
theorem isDigit_ne (c : Char) (h : RaySer.isDigit c = true) :
    c ≠ 'N' ∧ c ≠ 'T' ∧ c ≠ 'F' ∧ c ≠ 'i' ∧ c ≠ 'n' ∧ c ≠ '[' ∧
    c ≠ '(' ∧ c ≠ 'u' ∧ c ≠ RaySer.chQuote ∧ c ≠ RaySer.chLBrace ∧
    c ≠ '-' ∧ c ≠ 'L' ∧ c ≠ 'e' ∧ c ≠ ']' ∧ c ≠ ')' ∧
    c ≠ RaySer.chRBrace := by
  simp only [RaySer.isDigit, decide_eq_true_eq] at h
  refine ⟨?_, ?_, ?_, ?_, ?_, ?_, ?_, ?_, ?_, ?_, ?_, ?_, ?_, ?_, ?_, ?_⟩ <;>
    (rintro rfl; revert h; decide)

/-- Decimal digit lists are never empty. -/
theorem natDigitsRev_ne_nil (n : Nat) : RaySer.natDigitsRev n ≠ [] := by
  rw [RaySer.natDigitsRev]
  by_cases h : n < 10 <;> simp [h]

/-- Every character of a decimal digit list is a digit. -/
theorem natDigitsRev_all_digits (n : Nat) :
    ∀ c ∈ RaySer.natDigitsRev n, RaySer.isDigit c = true := by
  induction n using Nat.strong_induction_on with
  | _ n ih =>
    rw [RaySer.natDigitsRev]
    by_cases h : n < 10
    · simp only [dif_pos h, List.mem_singleton]
      rintro c rfl
      exact digitChar_isDigit n h
    · simp only [dif_neg h, List.mem_cons]
      rintro c (rfl | hc)
      · exact digitChar_isDigit (n % 10) (Nat.mod_lt _ (by omega))
      · exact ih (n / 10) (Nat.div_lt_self (by omega) (by omega)) c hc

/-- The printed form of a natural number is a non-empty digit string. -/
theorem printNat_cons (n : Nat) :
    ∃ c t, RaySer.printNat n = c :: t ∧ RaySer.isDigit c = true := by
  unfold RaySer.printNat
  cases hrev : (RaySer.natDigitsRev n).reverse with
  | nil =>
    exact absurd (List.reverse_eq_nil_iff.mp hrev) (natDigitsRev_ne_nil n)
  | cons c t =>
    refine ⟨c, t, rfl, ?_⟩
    have hc : c ∈ (RaySer.natDigitsRev n).reverse := by
      rw [hrev]
      exact List.mem_cons_self _ _
    exact natDigitsRev_all_digits n c (List.mem_reverse.mp hc)

/-- A printed natural number starts with a digit, whatever follows. -/
theorem startsDigit_printNat_append (n : Nat) (rest : List Char) :
    RaySer.startsDigit (RaySer.printNat n ++ rest) = true := by
  obtain ⟨c, t, hct, hd⟩ := printNat_cons n
  rw [hct]
  simpa [RaySer.startsDigit] using hd

/-- `parseDigits` leaves non-digit input untouched. -/
theorem parseDigits_stop (acc : Nat) (rest : List Char)
    (h : RaySer.startsDigit rest = false) :
    RaySer.parseDigits acc rest = (acc, rest) := by
  cases rest with
  | nil => rfl
  | cons c cs =>
    simp only [RaySer.startsDigit] at h
    simp [RaySer.parseDigits, h]

/-- Folding the printed digits of `n` onto an accumulator scales the
accumulator and adds `n`. -/
theorem parseDigits_printNat (n : Nat) : ∀ acc rest,
    RaySer.parseDigits acc (RaySer.printNat n ++ rest) =
      RaySer.parseDigits (acc * 10 ^ (RaySer.printNat n).length + n) rest := by
  induction n using Nat.strong_induction_on with
  | _ n ih =>
    intro acc rest
    by_cases h : n < 10
    · have hp : RaySer.printNat n = [RaySer.digitChar n] := by
        unfold RaySer.printNat
        rw [RaySer.natDigitsRev]
        simp [h]
      rw [hp]
      simp [RaySer.parseDigits, digitChar_isDigit n h, digitVal_digitChar n h]
    · have hp : RaySer.printNat n =
          RaySer.printNat (n / 10) ++ [RaySer.digitChar (n % 10)] := by
        unfold RaySer.printNat
        rw [RaySer.natDigitsRev]
        simp [h]
      rw [hp, List.append_assoc,
        ih (n / 10) (Nat.div_lt_self (by omega) (by omega)) acc _]
      have hd10 : n % 10 < 10 := Nat.mod_lt _ (by omega)
      simp only [List.singleton_append, RaySer.parseDigits,
        digitChar_isDigit _ hd10, if_true, digitVal_digitChar _ hd10,
        List.length_append, List.length_singleton, List.nil_append]
      congr 1
      rw [pow_succ, ← mul_assoc]
      generalize acc * (10 : Nat) ^ (RaySer.printNat (n / 10)).length = M
      omega

/-- What a true `stopperB` says about a non-empty input's head. -/
theorem stopper_head_facts (c : Char) (r : List Char)
    (h : RaySer.stopperB (c :: r) = true) :
    RaySer.isDigit c = false ∧ c ≠ 'e' ∧ c ≠ 'L' := by
  simp only [RaySer.stopperB, decide_eq_true_eq, Bool.or_eq_true,
    not_or, Bool.not_eq_true] at h
  exact ⟨h.1.1, h.1.2, h.2⟩

/-- A stopper-headed input does not begin with a digit. -/
theorem startsDigit_false_of_stopper (rest : List Char)
    (h : RaySer.stopperB rest = true) :
    RaySer.startsDigit rest = false := by
  cases rest with
  | nil => rfl
  | cons c r => exact (stopper_head_facts c r h).1

/-- After the digits, a stopper-headed continuation yields an int. -/
theorem parseNumAfterDigits_stop (neg : Bool) (n : Nat) (rest : List Char)
    (h : RaySer.stopperB rest = true) :
    RaySer.parseNumAfterDigits neg n rest =
      .ok (.int (RaySer.intOfSign neg n), rest) := by
  cases rest with
  | nil => rfl
  | cons c r =>
    obtain ⟨_, he, hL⟩ := stopper_head_facts c r h
    simp [RaySer.parseNumAfterDigits, hL, he]

/-- `parseNumber` consumes exactly the printed digits of `m` and hands
the continuation to `parseNumAfterDigits`. -/
theorem parseNumber_printNat (m : Nat) (tail : List Char)
    (hst : RaySer.startsDigit tail = false) :
    RaySer.parseNumber (RaySer.printNat m ++ tail) =
      RaySer.parseNumAfterDigits false m tail := by
  have hdig : RaySer.parseDigits 0 (RaySer.printNat m ++ tail) = (m, tail) := by
    rw [parseDigits_printNat m 0 tail, parseDigits_stop _ _ hst]
    simp
  obtain ⟨c, t, hct, hd⟩ := printNat_cons m
  obtain ⟨_, _, _, _, _, _, _, _, _, _, hminus, _, _, _, _, _⟩ :=
    isDigit_ne c hd
  rw [hct] at hdig ⊢
  show RaySer.parseNumber (c :: (t ++ tail)) = _
  simp only [RaySer.parseNumber, if_neg hminus, hd, if_true]
  rw [show c :: (t ++ tail) = (c :: t) ++ tail from rfl, hdig]

/-- `parseNumber` on a minus sign followed by printed digits. -/
theorem parseNumber_minus_printNat (m : Nat) (tail : List Char)
    (hst : RaySer.startsDigit tail = false) :
    RaySer.parseNumber ('-' :: (RaySer.printNat m ++ tail)) =
      RaySer.parseNumAfterDigits true m tail := by
  have hdig : RaySer.parseDigits 0 (RaySer.printNat m ++ tail) = (m, tail) := by
    rw [parseDigits_printNat m 0 tail, parseDigits_stop _ _ hst]
    simp
  simp only [RaySer.parseNumber, if_pos rfl,
    startsDigit_printNat_append m tail, if_true, hdig]

/-- The printed form of a negative integer. -/
theorem printInt_of_neg (n : Int) (h : n < 0) :
    RaySer.printInt n = '-' :: RaySer.printNat (-n).toNat := by
  unfold RaySer.printInt
  rw [if_pos h]

/-- The printed form of a non-negative integer. -/
theorem printInt_of_nonneg (n : Int) (h : ¬n < 0) :
    RaySer.printInt n = RaySer.printNat n.toNat := by
  unfold RaySer.printInt
  rw [if_neg h]

/-- The signed digit value of a printed integer reads back to it. -/
theorem intOfSign_neg_toNat (n : Int) (h : n < 0) :
    RaySer.intOfSign true (-n).toNat = n := by
  unfold RaySer.intOfSign
  rw [if_pos rfl, Int.toNat_of_nonneg (by omega)]
  omega

/-- The unsigned digit value of a printed integer reads back to it. -/
theorem intOfSign_nonneg_toNat (n : Int) (h : ¬n < 0) :
    RaySer.intOfSign false n.toNat = n := by
  unfold RaySer.intOfSign
  rw [if_neg (by simp), Int.toNat_of_nonneg (by omega)]

/-- `parseNumber` inverts `printInt` into an int literal when the
continuation cannot extend the literal. -/
theorem parseNumber_printInt_int (n : Int) (rest : List Char)
    (h : RaySer.stopperB rest = true) :
    RaySer.parseNumber (RaySer.printInt n ++ rest) = .ok (.int n, rest) := by
  have hst := startsDigit_false_of_stopper rest h
  by_cases hn : n < 0
  · rw [printInt_of_neg n hn]
    show RaySer.parseNumber ('-' :: (RaySer.printNat (-n).toNat ++ rest)) = _
    rw [parseNumber_minus_printNat _ _ hst, parseNumAfterDigits_stop _ _ _ h,
      intOfSign_neg_toNat n hn]
  · rw [printInt_of_nonneg n hn, parseNumber_printNat _ _ hst,
      parseNumAfterDigits_stop _ _ _ h, intOfSign_nonneg_toNat n hn]

/-- `parseNumber` inverts `printInt ++ "L"` into a long literal. -/
theorem parseNumber_printInt_long (n : Int) (rest : List Char) :
    RaySer.parseNumber (RaySer.printInt n ++ ('L' :: rest)) =
      .ok (.long n, rest) := by
  have hst : RaySer.startsDigit ('L' :: rest) = false := rfl
  have hafter : ∀ neg m, RaySer.parseNumAfterDigits neg m ('L' :: rest) =
      .ok (.long (RaySer.intOfSign neg m), rest) := by
    intro neg m
    simp [RaySer.parseNumAfterDigits]
  by_cases hn : n < 0
  · rw [printInt_of_neg n hn]
    show RaySer.parseNumber ('-' :: (RaySer.printNat (-n).toNat ++ _)) = _
    rw [parseNumber_minus_printNat _ _ hst, hafter, intOfSign_neg_toNat n hn]
  · rw [printInt_of_nonneg n hn, parseNumber_printNat _ _ hst, hafter,
      intOfSign_nonneg_toNat n hn]

/-- After the digits, an exponent continuation yields a float. -/
theorem parseNumAfterDigits_exp (neg : Bool) (n : Nat) (e : Int)
    (rest : List Char) (hst : RaySer.startsDigit rest = false) :
    RaySer.parseNumAfterDigits neg n ('e' :: (RaySer.printInt e ++ rest)) =
      .ok (.float (.finite (RaySer.intOfSign neg n) e), rest) := by
  have hdig : RaySer.parseDigits 0 (RaySer.printNat e.toNat ++ rest) =
      (e.toNat, rest) := by
    rw [parseDigits_printNat _ 0 rest, parseDigits_stop _ _ hst]
    simp
  have hdigneg : RaySer.parseDigits 0 (RaySer.printNat (-e).toNat ++ rest) =
      ((-e).toNat, rest) := by
    rw [parseDigits_printNat _ 0 rest, parseDigits_stop _ _ hst]
    simp
  by_cases he : e < 0
  · rw [printInt_of_neg e he]
    show RaySer.parseNumAfterDigits neg n
      ('e' :: '-' :: (RaySer.printNat (-e).toNat ++ rest)) = _
    simp [RaySer.parseNumAfterDigits, startsDigit_printNat_append, hdigneg]
    omega
  · rw [printInt_of_nonneg e he]
    obtain ⟨c, t, hct, hd⟩ := printNat_cons e.toNat
    obtain ⟨_, _, _, _, _, _, _, _, _, _, hminus, _, _, _, _, _⟩ :=
      isDigit_ne c hd
    rw [hct] at hdig
    rw [hct]
    show RaySer.parseNumAfterDigits neg n ('e' :: c :: (t ++ rest)) = _
    simp only [List.cons_append] at hdig
    simp [RaySer.parseNumAfterDigits, hminus, hd, hdig]
    omega

/-- `parseNumber` inverts printed floats (finite case). -/
theorem parseNumber_printInt_float (m e : Int) (rest : List Char)
    (hst : RaySer.startsDigit rest = false) :
    RaySer.parseNumber
      (RaySer.printInt m ++ ('e' :: (RaySer.printInt e ++ rest))) =
      .ok (.float (.finite m e), rest) := by
  have hstE : RaySer.startsDigit ('e' :: (RaySer.printInt e ++ rest)) =
      false := rfl
  by_cases hm : m < 0
  · rw [printInt_of_neg m hm]
    show RaySer.parseNumber ('-' :: (RaySer.printNat (-m).toNat ++ _)) = _
    rw [parseNumber_minus_printNat _ _ hstE, parseNumAfterDigits_exp _ _ _ _ hst,
      intOfSign_neg_toNat m hm]
  · rw [printInt_of_nonneg m hm, parseNumber_printNat _ _ hstE,
      parseNumAfterDigits_exp _ _ _ _ hst, intOfSign_nonneg_toNat m hm]

/-! ## C9 infrastructure: strings, heads and the serializable fragment -/

/-- Rebuilding a string from its character list is the identity. -/
theorem string_mk_toList (s : String) : String.mk s.toList = s := rfl

/-- The string-body parser on a leading closing quote. -/
theorem parseStrBody_quote (rest : List Char) :
    RaySer.parseStrBody (RaySer.chQuote :: rest) = Option.some ([], rest) := by
  rw [RaySer.parseStrBody.eq_def]
  simp

/-- The string-body parser on a backslash escape: the next character is
taken verbatim. -/
theorem parseStrBody_esc (d : Char) (rest : List Char) :
    RaySer.parseStrBody (RaySer.chBackslash :: d :: rest) =
      match RaySer.parseStrBody rest with
      | Option.some (s, r) => Option.some (d :: s, r)
      | Option.none => Option.none := by
  rw [RaySer.parseStrBody.eq_def]
  simp only []
  rw [if_neg (by decide)]
  simp

/-- The string-body parser on an ordinary character. -/
theorem parseStrBody_raw (c : Char) (rest : List Char)
    (h1 : ¬c = RaySer.chQuote) (h2 : ¬c = RaySer.chBackslash) :
    RaySer.parseStrBody (c :: rest) =
      match RaySer.parseStrBody rest with
      | Option.some (s, r) => Option.some (c :: s, r)
      | Option.none => Option.none := by
  rw [RaySer.parseStrBody.eq_def]
  simp only []
  rw [if_neg h1, if_neg h2]

/-- The string-body parser undoes the escaping applied by `repr`,
stopping at the closing quote. -/
theorem parseStrBody_escape (cs rest : List Char) :
    RaySer.parseStrBody (RaySer.escapeChars cs ++ (RaySer.chQuote :: rest)) =
      Option.some (cs, rest) := by
  induction cs with
  | nil => exact parseStrBody_quote rest
  | cons c cs ih =>
    by_cases h1 : c = RaySer.chBackslash
    · subst h1
      show RaySer.parseStrBody
        ((RaySer.escapeChar RaySer.chBackslash ++ RaySer.escapeChars cs) ++ _) = _
      have he : RaySer.escapeChar RaySer.chBackslash =
          [RaySer.chBackslash, RaySer.chBackslash] := by decide
      rw [he]
      simp only [List.cons_append, List.nil_append, List.append_assoc]
      rw [parseStrBody_esc, ih]
    · by_cases h2 : c = RaySer.chQuote
      · subst h2
        show RaySer.parseStrBody
          ((RaySer.escapeChar RaySer.chQuote ++ RaySer.escapeChars cs) ++ _) = _
        have he : RaySer.escapeChar RaySer.chQuote =
            [RaySer.chBackslash, RaySer.chQuote] := by decide
        rw [he]
        simp only [List.cons_append, List.nil_append, List.append_assoc]
        rw [parseStrBody_esc, ih]
      · show RaySer.parseStrBody
          ((RaySer.escapeChar c ++ RaySer.escapeChars cs) ++ _) = _
        have he : RaySer.escapeChar c = [c] := by
          simp [RaySer.escapeChar, h1, h2]
        rw [he]
        simp only [List.cons_append, List.nil_append, List.append_assoc]
        rw [parseStrBody_raw c _ h2 h1, ih]

/-- A printed integer is non-empty and starts with a minus sign or a
digit, never with a closing delimiter. -/
theorem printInt_cons (n : Int) :
    ∃ c t, RaySer.printInt n = c :: t ∧ c ≠ ']' ∧ c ≠ ')' ∧
      c ≠ RaySer.chRBrace := by
  by_cases hn : n < 0
  · exact ⟨'-', _, by rw [printInt_of_neg n hn], by decide, by decide,
      by decide⟩
  · obtain ⟨c, t, hct, hd⟩ := printNat_cons n.toNat
    obtain ⟨_, _, _, _, _, _, _, _, _, _, _, _, _, h1, h2, h3⟩ :=
      isDigit_ne c hd
    exact ⟨c, t, by rw [printInt_of_nonneg n hn, hct], h1, h2, h3⟩

/-- The `repr` of a serializable value is non-empty and never starts
with a closing delimiter. -/
theorem reprChars_head_shape (v : PyVal)
    (hgood : RaySer.is_argument_serializable v = true) :
    ∃ c t, RaySer.reprChars v = c :: t ∧ c ≠ ']' ∧ c ≠ ')' ∧
      c ≠ RaySer.chRBrace := by
  cases v with
  | none =>
    exact ⟨'N', ['o', 'n', 'e'], by simp [RaySer.reprChars], by decide,
      by decide, by decide⟩
  | pybool b =>
    cases b with
    | true =>
      exact ⟨'T', ['r', 'u', 'e'], by simp [RaySer.reprChars], by decide,
        by decide, by decide⟩
    | false =>
      exact ⟨'F', ['a', 'l', 's', 'e'], by simp [RaySer.reprChars],
        by decide, by decide, by decide⟩
  | int n =>
    obtain ⟨c, t, hct, h1, h2, h3⟩ := printInt_cons n
    exact ⟨c, t, by simp [RaySer.reprChars, hct], h1, h2, h3⟩
  | long n =>
    obtain ⟨c, t, hct, h1, h2, h3⟩ := printInt_cons n
    exact ⟨c, t ++ ['L'], by simp [RaySer.reprChars, hct], h1, h2, h3⟩
  | float f =>
    cases f with
    | finite m e =>
      obtain ⟨c, t, hct, h1, h2, h3⟩ := printInt_cons m
      exact ⟨c, t ++ ('e' :: RaySer.printInt e),
        by simp [RaySer.reprChars, RaySer.printFloat, hct], h1, h2, h3⟩
    | inf =>
      exact ⟨'i', ['n', 'f'], by simp [RaySer.reprChars, RaySer.printFloat],
        by decide, by decide, by decide⟩
    | ninf =>
      exact ⟨'-', ['i', 'n', 'f'],
        by simp [RaySer.reprChars, RaySer.printFloat], by decide, by decide,
        by decide⟩
    | nan =>
      exact ⟨'n', ['a', 'n'], by simp [RaySer.reprChars, RaySer.printFloat],
        by decide, by decide, by decide⟩
  | str s =>
    exact ⟨RaySer.chQuote, RaySer.escapeChars s.toList ++ [RaySer.chQuote],
      by simp [RaySer.reprChars], by decide, by decide, by decide⟩
  | unicode s =>
    exact ⟨'u', RaySer.chQuote ::
      (RaySer.escapeChars s.toList ++ [RaySer.chQuote]),
      by simp [RaySer.reprChars], by decide, by decide, by decide⟩
  | list xs =>
    exact ⟨'[', RaySer.reprElems xs ++ [']'], by simp [RaySer.reprChars],
      by decide, by decide, by decide⟩
  | tuple xs =>
    match xs with
    | [] =>
      exact ⟨'(', [')'], by simp [RaySer.reprChars], by decide, by decide,
        by decide⟩
    | [x] =>
      exact ⟨'(', RaySer.reprChars x ++ [',', ')'],
        by simp [RaySer.reprChars], by decide, by decide, by decide⟩
    | x :: y :: rest =>
      exact ⟨'(', RaySer.reprElems (x :: y :: rest) ++ [')'],
        by simp [RaySer.reprChars], by decide, by decide, by decide⟩
  | dict d =>
    exact ⟨RaySer.chLBrace, RaySer.reprPairs d ++ [RaySer.chRBrace],
      by simp [RaySer.reprChars], by decide, by decide, by decide⟩
  | objref i => simp [RaySer.is_argument_serializable] at hgood
  | instObj cid a => simp [RaySer.is_argument_serializable] at hgood
  | namedTup cid f => simp [RaySer.is_argument_serializable] at hgood
  | ndarr d t => simp [RaySer.is_argument_serializable] at hgood
  | csrM s d i p => simp [RaySer.is_argument_serializable] at hgood
  | cooM s r c d => simp [RaySer.is_argument_serializable] at hgood
  | pickled v => simp [RaySer.is_argument_serializable] at hgood

/-- The printed elements of a non-empty list start with the head
element's first character. -/
theorem reprElems_head_shape (x : PyVal) (xs : List PyVal)
    (hgood : RaySer.is_argument_serializable x = true) :
    ∃ c t, RaySer.reprElems (x :: xs) = c :: t ∧ c ≠ ']' ∧ c ≠ ')' ∧
      c ≠ RaySer.chRBrace := by
  obtain ⟨c, t, hct, h1, h2, h3⟩ := reprChars_head_shape x hgood
  cases xs with
  | nil => exact ⟨c, t, by simp [RaySer.reprElems, hct], h1, h2, h3⟩
  | cons y ys =>
    exact ⟨c, t ++ ([',', ' '] ++ RaySer.reprElems (y :: ys)),
      by simp [RaySer.reprElems, hct], h1, h2, h3⟩

/-- The printed entries of a non-empty dict start with the first key's
first character. -/
theorem reprPairs_head_shape (k v : PyVal) (ps : List (PyVal × PyVal))
    (hgood : RaySer.is_argument_serializable k = true) :
    ∃ c t, RaySer.reprPairs ((k, v) :: ps) = c :: t ∧ c ≠ ']' ∧ c ≠ ')' ∧
      c ≠ RaySer.chRBrace := by
  obtain ⟨c, t, hct, h1, h2, h3⟩ := reprChars_head_shape k hgood
  cases ps with
  | nil =>
    exact ⟨c, t ++ ([':', ' '] ++ RaySer.reprChars v),
      by simp [RaySer.reprPairs, hct], h1, h2, h3⟩
  | cons q qs =>
    exact ⟨c, t ++ ([':', ' '] ++ RaySer.reprChars v ++ [',', ' '] ++
      RaySer.reprPairs (q :: qs)),
      by simp [RaySer.reprPairs, hct], h1, h2, h3⟩

/-- Unpacking `is_argument_serializable` on a list. -/
theorem is_arg_list_elim (xs : List PyVal)
    (h : RaySer.is_argument_serializable (.list xs) = true) :
    xs.length ≤ 100 ∧ RaySer.is_argument_serializableL xs = true := by
  simp only [RaySer.is_argument_serializable] at h
  by_cases hl : xs.length ≤ 100
  · rw [if_pos hl] at h
    exact ⟨hl, h⟩
  · rw [if_neg hl] at h
    exact absurd h (by simp)

/-- `parseVal` at positive fuel runs one parsing step over the previous
fuel level's parsers. -/
theorem parseVal_succ (fuel : Nat) (cs : List Char) :
    RaySer.parseVal (fuel + 1) cs =
      RaySer.parseValStep (RaySer.parseFnsAt fuel) cs := rfl

/-- `parseElems` at positive fuel runs one element step. -/
theorem parseElems_succ (fuel : Nat) (cs : List Char) :
    RaySer.parseElems (fuel + 1) cs =
      RaySer.parseElemsStep (RaySer.parseFnsAt fuel) cs := rfl

/-- `parsePairs` at positive fuel runs one pair step. -/
theorem parsePairs_succ (fuel : Nat) (cs : List Char) :
    RaySer.parsePairs (fuel + 1) cs =
      RaySer.parsePairsStep (RaySer.parseFnsAt fuel) cs := rfl

/-- The value component of the packaged parsers is `parseVal`. -/
theorem parseFnsAt_pv (fuel : Nat) :
    (RaySer.parseFnsAt fuel).pv = RaySer.parseVal fuel := rfl

/-- The elements component of the packaged parsers is `parseElems`. -/
theorem parseFnsAt_pe (fuel : Nat) :
    (RaySer.parseFnsAt fuel).pe = RaySer.parseElems fuel := rfl

/-- The pairs component of the packaged parsers is `parsePairs`. -/
theorem parseFnsAt_pp (fuel : Nat) :
    (RaySer.parseFnsAt fuel).pp = RaySer.parsePairs fuel := rfl

/-- The parsing step on the `None` literal. -/
theorem parseValStep_none_lit (rec : RaySer.ParseFns) (r : List Char) :
    RaySer.parseValStep rec ('N' :: 'o' :: 'n' :: 'e' :: r) =
      .ok (.none, r) := rfl

/-- The parsing step on the `True` literal. -/
theorem parseValStep_true_lit (rec : RaySer.ParseFns) (r : List Char) :
    RaySer.parseValStep rec ('T' :: 'r' :: 'u' :: 'e' :: r) =
      .ok (.pybool true, r) := rfl

/-- The parsing step on the `False` literal. -/
theorem parseValStep_false_lit (rec : RaySer.ParseFns) (r : List Char) :
    RaySer.parseValStep rec ('F' :: 'a' :: 'l' :: 's' :: 'e' :: r) =
      .ok (.pybool false, r) := rfl

/-- The parsing step on a non-empty list literal. -/
theorem parseValStep_lbracket_cons (rec : RaySer.ParseFns) (c2 : Char)
    (r2 : List Char) (h2 : ¬c2 = ']') :
    RaySer.parseValStep rec ('[' :: c2 :: r2) =
      (match rec.pe (c2 :: r2) with
       | .error e => .error e
       | .ok (xs, r3) =>
         match r3 with
         | ']' :: r4 => .ok (.list xs, r4)
         | _ => .error .syntaxError) := by
  simp [RaySer.parseValStep, h2]

/-- The parsing step on a non-empty tuple literal. -/
theorem parseValStep_lparen_cons (rec : RaySer.ParseFns) (c2 : Char)
    (r2 : List Char) (h2 : ¬c2 = ')') :
    RaySer.parseValStep rec ('(' :: c2 :: r2) =
      (match rec.pe (c2 :: r2) with
       | .error e => .error e
       | .ok (xs, r3) =>
         match r3 with
         | ',' :: ')' :: r4 => .ok (.tuple xs, r4)
         | ')' :: r4 => .ok (.tuple xs, r4)
         | _ => .error .syntaxError) := by
  simp [RaySer.parseValStep, h2]

/-- The parsing step on a unicode string literal. -/
theorem parseValStep_unicode_lit (rec : RaySer.ParseFns) (r2 : List Char) :
    RaySer.parseValStep rec ('u' :: RaySer.chQuote :: r2) =
      (match RaySer.parseStrBody r2 with
       | Option.some (s, r3) => .ok (.unicode (String.mk s), r3)
       | Option.none => .error .syntaxError) := by
  simp [RaySer.parseValStep]

/-- The parsing step on a plain string literal. -/
theorem parseValStep_quote_head (rec : RaySer.ParseFns) (r : List Char) :
    RaySer.parseValStep rec (RaySer.chQuote :: r) =
      (match RaySer.parseStrBody r with
       | Option.some (s, r2) => .ok (.str (String.mk s), r2)
       | Option.none => .error .syntaxError) := rfl

/-- The parsing step on a non-empty dict literal. -/
theorem parseValStep_lbrace_cons (rec : RaySer.ParseFns) (c2 : Char)
    (r2 : List Char) (h2 : ¬c2 = RaySer.chRBrace) :
    RaySer.parseValStep rec (RaySer.chLBrace :: c2 :: r2) =
      (match rec.pp (c2 :: r2) with
       | .error e => .error e
       | .ok (ps, r3) =>
         match r3 with
         | c4 :: r4 =>
             if c4 = RaySer.chRBrace then .ok (.dict ps, r4)
             else .error .syntaxError
         | [] => .error .syntaxError) := by
  simp only [RaySer.parseValStep]
  rw [if_neg (by decide), if_neg (by decide), if_neg (by decide),
    if_neg (by decide), if_neg (by decide), if_neg (by decide),
    if_neg (by decide), if_neg (by decide), if_neg (by decide)]
  first
  | rw [if_pos rfl, if_neg h2]
  | rw [if_pos trivial, if_neg h2]
  | rw [if_neg h2]

/-- The parsing step on the empty list literal. -/
theorem parseValStep_empty_list (rec : RaySer.ParseFns) (r : List Char) :
    RaySer.parseValStep rec ('[' :: ']' :: r) = .ok (.list [], r) := rfl

/-- The parsing step on the empty tuple literal. -/
theorem parseValStep_empty_tuple (rec : RaySer.ParseFns) (r : List Char) :
    RaySer.parseValStep rec ('(' :: ')' :: r) = .ok (.tuple [], r) := rfl

/-- The parsing step on the empty dict literal. -/
theorem parseValStep_empty_dict (rec : RaySer.ParseFns) (r : List Char) :
    RaySer.parseValStep rec (RaySer.chLBrace :: RaySer.chRBrace :: r) =
      .ok (.dict [], r) := rfl

/-- The parsing step hands a digit-headed input to `parseNumber`. -/
theorem parseValStep_digit_head (rec : RaySer.ParseFns) (c : Char)
    (r : List Char) (hd : RaySer.isDigit c = true) :
    RaySer.parseValStep rec (c :: r) = RaySer.parseNumber (c :: r) := by
  obtain ⟨h1, h2, h3, h4, h5, h6, h7, h8, h9, h10, h11, _, _, _, _, _⟩ :=
    isDigit_ne c hd
  simp only [RaySer.parseValStep]
  rw [if_neg h1, if_neg h2, if_neg h3, if_neg h4, if_neg h5, if_neg h6,
    if_neg h7, if_neg h8, if_neg h9, if_neg h10, if_neg h11]

/-- The parsing step hands a minus-then-digit input to `parseNumber`. -/
theorem parseValStep_minus_head (rec : RaySer.ParseFns) (r : List Char)
    (hd : RaySer.startsDigit r = true) :
    RaySer.parseValStep rec ('-' :: r) = RaySer.parseNumber ('-' :: r) := by
  simp only [RaySer.parseValStep]
  rw [if_neg (by decide), if_neg (by decide), if_neg (by decide),
    if_neg (by decide), if_neg (by decide), if_neg (by decide),
    if_neg (by decide), if_neg (by decide), if_neg (by decide),
    if_neg (by decide)]
  first
  | rw [if_pos rfl]
  | rw [if_pos trivial]
  | skip
  cases r with
  | nil => simp [RaySer.startsDigit] at hd
  | cons c2 t2 =>
    have : ¬c2 = 'i' := by
      simp only [RaySer.startsDigit] at hd
      exact (isDigit_ne c2 hd).2.2.2.1
    split
    · rename_i heq
      injection heq with hh1 hh2
      exact absurd hh1 this
    · rfl

/-- Unpacking `is_argument_serializable` on a tuple. -/
theorem is_arg_tuple_elim (xs : List PyVal)
    (h : RaySer.is_argument_serializable (.tuple xs) = true) :
    xs.length ≤ 100 ∧ RaySer.is_argument_serializableL xs = true := by
  simp only [RaySer.is_argument_serializable] at h
  by_cases hl : xs.length ≤ 100
  · rw [if_pos hl] at h
    exact ⟨hl, h⟩
  · rw [if_neg hl] at h
    exact absurd h (by simp)

/-- Unpacking `is_argument_serializable` on a dict. -/
theorem is_arg_dict_elim (d : List (PyVal × PyVal))
    (h : RaySer.is_argument_serializable (.dict d) = true) :
    d.length ≤ 100 ∧ RaySer.is_argument_serializableP d = true := by
  simp only [RaySer.is_argument_serializable] at h
  by_cases hl : d.length ≤ 100
  · rw [if_pos hl] at h
    exact ⟨hl, h⟩
  · rw [if_neg hl] at h
    exact absurd h (by simp)

/-- Unpacking elementwise serializability of a cons. -/
theorem is_argL_cons (x : PyVal) (xs : List PyVal)
    (h : RaySer.is_argument_serializableL (x :: xs) = true) :
    RaySer.is_argument_serializable x = true ∧
      RaySer.is_argument_serializableL xs = true := by
  simp only [RaySer.is_argument_serializableL, Bool.and_eq_true] at h
  exact h

/-- Unpacking entrywise serializability of a cons of dict entries. -/
theorem is_argP_cons (k v : PyVal) (ps : List (PyVal × PyVal))
    (h : RaySer.is_argument_serializableP ((k, v) :: ps) = true) :
    RaySer.is_argument_serializable k = true ∧
      RaySer.is_argument_serializable v = true ∧
      RaySer.is_argument_serializableP ps = true := by
  simp only [RaySer.is_argument_serializableP, Bool.and_eq_true] at h
  exact ⟨h.1.1, h.1.2, h.2⟩

/-- Unpacking float finiteness over a cons of elements. -/
theorem finiteL_cons (x : PyVal) (xs : List PyVal)
    (h : RaySer.finiteFloatsL (x :: xs) = true) :
    RaySer.finiteFloats x = true ∧ RaySer.finiteFloatsL xs = true := by
  simp only [RaySer.finiteFloatsL, Bool.and_eq_true] at h
  exact h

/-- Unpacking float finiteness over a cons of dict entries. -/
theorem finiteP_cons (k v : PyVal) (ps : List (PyVal × PyVal))
    (h : RaySer.finiteFloatsP ((k, v) :: ps) = true) :
    RaySer.finiteFloats k = true ∧ RaySer.finiteFloats v = true ∧
      RaySer.finiteFloatsP ps = true := by
  simp only [RaySer.finiteFloatsP, Bool.and_eq_true] at h
  exact ⟨h.1.1, h.1.2, h.2⟩

/-- An input whose head is not a comma never begins with the
comma-space separator. -/
theorem notCommaSpace_cons (c : Char) (r : List Char) (h : ¬c = ',') :
    RaySer.notCommaSpace (c :: r) = true := by
  cases r with
  | nil => rfl
  | cons c2 t => simp [RaySer.notCommaSpace, h]

/-- On inputs beginning with a printed integer, the parsing step always
reduces to `parseNumber`. -/
theorem parseValStep_printInt (rec : RaySer.ParseFns) (n : Int)
    (tail : List Char) :
    RaySer.parseValStep rec (RaySer.printInt n ++ tail) =
      RaySer.parseNumber (RaySer.printInt n ++ tail) := by
  by_cases hn : n < 0
  · rw [printInt_of_neg n hn, List.cons_append]
    exact parseValStep_minus_head rec _ (startsDigit_printNat_append _ _)
  · rw [printInt_of_nonneg n hn]
    obtain ⟨c, t, hct, hd⟩ := printNat_cons n.toNat
    rw [hct, List.cons_append]
    exact parseValStep_digit_head rec c _ hd

/-- The element-list step stops after one element when the continuation
does not begin with the comma-space separator. -/
theorem parseElemsStep_stop (rec : RaySer.ParseFns) (cs : List Char)
    (x : PyVal) (rest : List Char)
    (hpv : rec.pv cs = .ok (x, rest))
    (hnc : RaySer.notCommaSpace rest = true) :
    RaySer.parseElemsStep rec cs = .ok ([x], rest) := by
  simp only [RaySer.parseElemsStep, hpv]
  split
  · simp [RaySer.notCommaSpace] at hnc
  · rfl

/-- The element-list step continues across a comma-space separator. -/
theorem parseElemsStep_cons (rec : RaySer.ParseFns) (cs r2 : List Char)
    (x : PyVal) (xs : List PyVal) (rest : List Char)
    (hpv : rec.pv cs = .ok (x, ',' :: ' ' :: r2))
    (hpe : rec.pe r2 = .ok (xs, rest)) :
    RaySer.parseElemsStep rec cs = .ok (x :: xs, rest) := by
  simp only [RaySer.parseElemsStep, hpv, hpe]

/-- The pair-list step reads a single `key: value` pair when the
continuation does not begin with the comma-space separator. -/
theorem parsePairsStep_single (rec : RaySer.ParseFns) (cs r2 : List Char)
    (k v : PyVal) (rest : List Char)
    (hpk : rec.pv cs = .ok (k, ':' :: ' ' :: r2))
    (hpv : rec.pv r2 = .ok (v, rest))
    (hnc : RaySer.notCommaSpace rest = true) :
    RaySer.parsePairsStep rec cs = .ok ([(k, v)], rest) := by
  simp only [RaySer.parsePairsStep, hpk, hpv]
  split
  · simp [RaySer.notCommaSpace] at hnc
  · rfl

/-- The pair-list step continues across a comma-space separator. -/
theorem parsePairsStep_cons (rec : RaySer.ParseFns) (cs r2 r4 : List Char)
    (k v : PyVal) (ps : List (PyVal × PyVal)) (rest : List Char)
    (hpk : rec.pv cs = .ok (k, ':' :: ' ' :: r2))
    (hpv : rec.pv r2 = .ok (v, ',' :: ' ' :: r4))
    (hpp : rec.pp r4 = .ok (ps, rest)) :
    RaySer.parsePairsStep rec cs = .ok ((k, v) :: ps, rest) := by
  simp only [RaySer.parsePairsStep, hpk, hpv, hpp]

/-- The central inversion: on serializable values whose floats are all
finite, the literal parsers read back exactly what `repr` printed,
leaving any stopper-headed continuation untouched (jointly for values,
element lists and pair lists, by induction on the available fuel). -/
theorem parse_repr_round (fuel : Nat) :
    (∀ v rest, RaySer.is_argument_serializable v = true →
      RaySer.finiteFloats v = true → RaySer.stopperB rest = true →
      (RaySer.reprChars v).length ≤ fuel →
      RaySer.parseVal fuel (RaySer.reprChars v ++ rest) =
        .ok (v, rest)) ∧
    (∀ xs rest, xs ≠ [] → RaySer.is_argument_serializableL xs = true →
      RaySer.finiteFloatsL xs = true → RaySer.stopperB rest = true →
      RaySer.notCommaSpace rest = true →
      (RaySer.reprElems xs).length + 1 ≤ fuel →
      RaySer.parseElems fuel (RaySer.reprElems xs ++ rest) =
        .ok (xs, rest)) ∧
    (∀ ps rest, ps ≠ [] → RaySer.is_argument_serializableP ps = true →
      RaySer.finiteFloatsP ps = true → RaySer.stopperB rest = true →
      RaySer.notCommaSpace rest = true →
      (RaySer.reprPairs ps).length + 1 ≤ fuel →
      RaySer.parsePairs fuel (RaySer.reprPairs ps ++ rest) =
        .ok (ps, rest)) := by
  induction fuel with
  | zero =>
    refine ⟨?_, ?_, ?_⟩
    · intro v rest hgood _ _ hlen
      obtain ⟨c, t, hct, _, _, _⟩ := reprChars_head_shape v hgood
      rw [hct] at hlen
      simp at hlen
    · intro xs rest _ _ _ _ _ hlen
      omega
    · intro ps rest _ _ _ _ _ hlen
      omega
  | succ f ih =>
    obtain ⟨ih1, ih2, ih3⟩ := ih
    refine ⟨?_, ?_, ?_⟩
    · intro v rest hgood hfin hstop hlen
      cases v with
      | none =>
        rw [parseVal_succ]
        simpa [RaySer.reprChars] using
          parseValStep_none_lit (RaySer.parseFnsAt f) rest
      | pybool b =>
        cases b with
        | true =>
          rw [parseVal_succ]
          simpa [RaySer.reprChars] using
            parseValStep_true_lit (RaySer.parseFnsAt f) rest
        | false =>
          rw [parseVal_succ]
          simpa [RaySer.reprChars] using
            parseValStep_false_lit (RaySer.parseFnsAt f) rest
      | int n =>
        rw [parseVal_succ, show RaySer.reprChars (PyVal.int n) =
          RaySer.printInt n from by simp [RaySer.reprChars],
          parseValStep_printInt]
        exact parseNumber_printInt_int n rest hstop
      | long n =>
        rw [parseVal_succ, show RaySer.reprChars (PyVal.long n) =
          RaySer.printInt n ++ ['L'] from by simp [RaySer.reprChars],
          List.append_assoc, parseValStep_printInt]
        simpa using parseNumber_printInt_long n rest
      | float fl =>
        obtain ⟨m, e, rfl⟩ : ∃ m e, fl = PyFloat.finite m e := by
          cases fl with
          | finite m e => exact ⟨m, e, rfl⟩
          | inf => simp [RaySer.finiteFloats] at hfin
          | ninf => simp [RaySer.finiteFloats] at hfin
          | nan => simp [RaySer.finiteFloats] at hfin
        rw [parseVal_succ,
          show RaySer.reprChars (PyVal.float (PyFloat.finite m e)) =
            RaySer.printInt m ++ ('e' :: RaySer.printInt e) from by
              simp [RaySer.reprChars, RaySer.printFloat],
          List.append_assoc, parseValStep_printInt]
        simpa using parseNumber_printInt_float m e rest
          (startsDigit_false_of_stopper rest hstop)
      | str s =>
        rw [parseVal_succ]
        have h := parseValStep_quote_head (RaySer.parseFnsAt f)
          (RaySer.escapeChars s.toList ++ (RaySer.chQuote :: rest))
        rw [parseStrBody_escape s.toList rest] at h
        simpa [RaySer.reprChars, string_mk_toList] using h
      | unicode s =>
        rw [parseVal_succ]
        have h := parseValStep_unicode_lit (RaySer.parseFnsAt f)
          (RaySer.escapeChars s.toList ++ (RaySer.chQuote :: rest))
        rw [parseStrBody_escape s.toList rest] at h
        simpa [RaySer.reprChars, string_mk_toList] using h
      | list xs =>
        obtain ⟨h100, hL⟩ := is_arg_list_elim xs hgood
        have hfinL : RaySer.finiteFloatsL xs = true := by
          simpa [RaySer.finiteFloats] using hfin
        cases xs with
        | nil =>
          rw [parseVal_succ]
          simpa [RaySer.reprChars, RaySer.reprElems] using
            parseValStep_empty_list (RaySer.parseFnsAt f) rest
        | cons x xs =>
          obtain ⟨c2, t, hct, hne1, _, _⟩ :=
            reprElems_head_shape x xs (is_argL_cons x xs hL).1
          have hrc : RaySer.reprChars (PyVal.list (x :: xs)) =
              '[' :: (RaySer.reprElems (x :: xs) ++ [']']) := by
            simp [RaySer.reprChars]
          have hlenE : (RaySer.reprElems (x :: xs)).length + 1 ≤ f := by
            rw [hrc] at hlen
            simp at hlen
            omega
          have hpe := ih2 (x :: xs) (']' :: rest) (by simp) hL hfinL rfl
            (notCommaSpace_cons ']' rest (by decide)) hlenE
          rw [hct, show (c2 :: t) ++ (']' :: rest) =
            c2 :: (t ++ (']' :: rest)) from by simp] at hpe
          rw [parseVal_succ, hrc, hct]
          rw [show ('[' :: ((c2 :: t) ++ [']'])) ++ rest =
            '[' :: c2 :: (t ++ (']' :: rest)) from by simp]
          rw [parseValStep_lbracket_cons _ c2 _ hne1, parseFnsAt_pe, hpe]
          simp
      | tuple xs =>
        obtain ⟨h100, hL⟩ := is_arg_tuple_elim xs hgood
        have hfinL : RaySer.finiteFloatsL xs = true := by
          simpa [RaySer.finiteFloats] using hfin
        cases xs with
        | nil =>
          rw [parseVal_succ]
          simpa [RaySer.reprChars] using
            parseValStep_empty_tuple (RaySer.parseFnsAt f) rest
        | cons x xs =>
          cases xs with
          | nil =>
            obtain ⟨c2, t, hct, _, hne2, _⟩ :=
              reprChars_head_shape x (is_argL_cons x [] hL).1
            have hrc : RaySer.reprChars (PyVal.tuple [x]) =
                '(' :: (RaySer.reprChars x ++ [',', ')']) := by
              simp [RaySer.reprChars]
            have hE : RaySer.reprElems [x] = RaySer.reprChars x := by
              simp [RaySer.reprElems]
            have hlenE : (RaySer.reprElems [x]).length + 1 ≤ f := by
              rw [hrc] at hlen
              rw [hE]
              simp at hlen
              omega
            have hpe := ih2 [x] (',' :: ')' :: rest) (by simp) hL hfinL rfl
              rfl hlenE
            rw [hE, hct, show (c2 :: t) ++ (',' :: ')' :: rest) =
              c2 :: (t ++ (',' :: ')' :: rest)) from by simp] at hpe
            rw [parseVal_succ, hrc, hct]
            rw [show ('(' :: ((c2 :: t) ++ [',', ')'])) ++ rest =
              '(' :: c2 :: (t ++ (',' :: ')' :: rest)) from by simp]
            rw [parseValStep_lparen_cons _ c2 _ hne2, parseFnsAt_pe, hpe]
            simp
          | cons y ys =>
            obtain ⟨c2, t, hct, _, hne2, _⟩ :=
              reprElems_head_shape x (y :: ys)
                (is_argL_cons x (y :: ys) hL).1
            have hrc : RaySer.reprChars (PyVal.tuple (x :: y :: ys)) =
                '(' :: (RaySer.reprElems (x :: y :: ys) ++ [')']) := by
              simp [RaySer.reprChars]
            have hlenE : (RaySer.reprElems (x :: y :: ys)).length + 1 ≤ f := by
              rw [hrc] at hlen
              simp at hlen
              omega
            have hpe := ih2 (x :: y :: ys) (')' :: rest) (by simp) hL hfinL
              rfl (notCommaSpace_cons ')' rest (by decide)) hlenE
            rw [hct, show (c2 :: t) ++ (')' :: rest) =
              c2 :: (t ++ (')' :: rest)) from by simp] at hpe
            rw [parseVal_succ, hrc, hct]
            rw [show ('(' :: ((c2 :: t) ++ [')'])) ++ rest =
              '(' :: c2 :: (t ++ (')' :: rest)) from by simp]
            rw [parseValStep_lparen_cons _ c2 _ hne2, parseFnsAt_pe, hpe]
            simp
      | dict d =>
        obtain ⟨h100, hP⟩ := is_arg_dict_elim d hgood
        have hfinP : RaySer.finiteFloatsP d = true := by
          simpa [RaySer.finiteFloats] using hfin
        cases d with
        | nil =>
          rw [parseVal_succ]
          simpa [RaySer.reprChars, RaySer.reprPairs] using
            parseValStep_empty_dict (RaySer.parseFnsAt f) rest
        | cons kv ps =>
          obtain ⟨k, v⟩ := kv
          obtain ⟨c2, t, hct, _, _, hne3⟩ :=
            reprPairs_head_shape k v ps (is_argP_cons k v ps hP).1
          have hrc : RaySer.reprChars (PyVal.dict ((k, v) :: ps)) =
              RaySer.chLBrace ::
                (RaySer.reprPairs ((k, v) :: ps) ++ [RaySer.chRBrace]) := by
            simp [RaySer.reprChars]
          have hlenE : (RaySer.reprPairs ((k, v) :: ps)).length + 1 ≤ f := by
            rw [hrc] at hlen
            simp at hlen
            omega
          have hpp := ih3 ((k, v) :: ps) (RaySer.chRBrace :: rest) (by simp)
            hP hfinP rfl
            (notCommaSpace_cons RaySer.chRBrace rest (by decide)) hlenE
          rw [hct, show (c2 :: t) ++ (RaySer.chRBrace :: rest) =
            c2 :: (t ++ (RaySer.chRBrace :: rest)) from by simp] at hpp
          rw [parseVal_succ, hrc, hct]
          rw [show (RaySer.chLBrace ::
              ((c2 :: t) ++ [RaySer.chRBrace])) ++ rest =
            RaySer.chLBrace :: c2 ::
              (t ++ (RaySer.chRBrace :: rest)) from by simp]
          rw [parseValStep_lbrace_cons _ c2 _ hne3, parseFnsAt_pp, hpp]
          simp
      | objref i => simp [RaySer.is_argument_serializable] at hgood
      | instObj cid a => simp [RaySer.is_argument_serializable] at hgood
      | namedTup cid a => simp [RaySer.is_argument_serializable] at hgood
      | ndarr dd tt => simp [RaySer.is_argument_serializable] at hgood
      | csrM s1 d1 i1 p1 => simp [RaySer.is_argument_serializable] at hgood
      | cooM s1 r1 c1 d1 => simp [RaySer.is_argument_serializable] at hgood
      | pickled w => simp [RaySer.is_argument_serializable] at hgood
    · intro xs rest hne hL hfinL hstop hnc hlen
      cases xs with
      | nil => exact absurd rfl hne
      | cons x xs =>
        obtain ⟨hx, hxs⟩ := is_argL_cons x xs hL
        obtain ⟨hfx, hfxs⟩ := finiteL_cons x xs hfinL
        cases xs with
        | nil =>
          have hE : RaySer.reprElems [x] = RaySer.reprChars x := by
            simp [RaySer.reprElems]
          have hpv := ih1 x rest hx hfx hstop
            (by rw [hE] at hlen; omega)
          rw [parseElems_succ, hE]
          exact parseElemsStep_stop _ _ x rest
            (by rw [parseFnsAt_pv]; exact hpv) hnc
        | cons y ys =>
          have hE : RaySer.reprElems (x :: y :: ys) =
              RaySer.reprChars x ++ [',', ' '] ++
                RaySer.reprElems (y :: ys) := by
            simp [RaySer.reprElems]
          have hlx : (RaySer.reprChars x).length ≤ f := by
            rw [hE] at hlen
            simp at hlen
            omega
          have hly : (RaySer.reprElems (y :: ys)).length + 1 ≤ f := by
            rw [hE] at hlen
            simp at hlen
            omega
          have hpv := ih1 x
            (',' :: ' ' :: (RaySer.reprElems (y :: ys) ++ rest))
            hx hfx rfl hlx
          have hpe := ih2 (y :: ys) rest (by simp) hxs hfxs hstop hnc hly
          rw [parseElems_succ, hE]
          refine parseElemsStep_cons _ _
            (RaySer.reprElems (y :: ys) ++ rest) x (y :: ys) rest ?_ ?_
          · rw [parseFnsAt_pv]
            simpa using hpv
          · rw [parseFnsAt_pe]
            exact hpe
    · intro ps rest hne hP hfinP hstop hnc hlen
      cases ps with
      | nil => exact absurd rfl hne
      | cons kv ps =>
        obtain ⟨k, v⟩ := kv
        obtain ⟨hk, hv, hps⟩ := is_argP_cons k v ps hP
        obtain ⟨hfk, hfv, hfps⟩ := finiteP_cons k v ps hfinP
        cases ps with
        | nil =>
          have hE : RaySer.reprPairs [(k, v)] =
              RaySer.reprChars k ++ [':', ' '] ++ RaySer.reprChars v := by
            simp [RaySer.reprPairs]
          have hlk : (RaySer.reprChars k).length ≤ f := by
            rw [hE] at hlen
            simp at hlen
            omega
          have hlv : (RaySer.reprChars v).length ≤ f := by
            rw [hE] at hlen
            simp at hlen
            omega
          have hpk := ih1 k (':' :: ' ' :: (RaySer.reprChars v ++ rest))
            hk hfk rfl hlk
          have hpv := ih1 v rest hv hfv hstop hlv
          rw [parsePairs_succ, hE]
          refine parsePairsStep_single _ _ (RaySer.reprChars v ++ rest)
            k v rest ?_ ?_ hnc
          · rw [parseFnsAt_pv]
            simpa using hpk
          · rw [parseFnsAt_pv]
            exact hpv
        | cons q qs =>
          have hE : RaySer.reprPairs ((k, v) :: q :: qs) =
              RaySer.reprChars k ++ [':', ' '] ++ RaySer.reprChars v ++
                [',', ' '] ++ RaySer.reprPairs (q :: qs) := by
            simp [RaySer.reprPairs]
          have hlk : (RaySer.reprChars k).length ≤ f := by
            rw [hE] at hlen
            simp at hlen
            omega
          have hlv : (RaySer.reprChars v).length ≤ f := by
            rw [hE] at hlen
            simp at hlen
            omega
          have hlq : (RaySer.reprPairs (q :: qs)).length + 1 ≤ f := by
            rw [hE] at hlen
            simp at hlen
            omega
          have hpk := ih1 k (':' :: ' ' :: (RaySer.reprChars v ++
            (',' :: ' ' :: (RaySer.reprPairs (q :: qs) ++ rest))))
            hk hfk rfl hlk
          have hpv := ih1 v
            (',' :: ' ' :: (RaySer.reprPairs (q :: qs) ++ rest))
            hv hfv rfl hlv
          have hpp := ih3 (q :: qs) rest (by simp) hps hfps hstop hnc hlq
          rw [parsePairs_succ, hE]
          refine parsePairsStep_cons _ _
            (RaySer.reprChars v ++
              (',' :: ' ' :: (RaySer.reprPairs (q :: qs) ++ rest)))
            (RaySer.reprPairs (q :: qs) ++ rest) k v (q :: qs) rest
            ?_ ?_ ?_
          · rw [parseFnsAt_pv]
            simpa using hpk
          · rw [parseFnsAt_pv]
            simpa using hpv
          · rw [parseFnsAt_pp]
            exact hpp

/-- Full-input round trip: `deserialize_argument` parses the `repr` of
any serializable value with only finite floats back to the value. -/
theorem deserialize_repr (v : PyVal)
    (hgood : RaySer.is_argument_serializable v = true)
    (hfin : RaySer.finiteFloats v = true) :
    RaySer.deserialize_argument (String.mk (RaySer.reprChars v)) =
      .ok v := by
  have h := (parse_repr_round ((RaySer.reprChars v).length + 1)).1 v []
    hgood hfin rfl (by omega)
  rw [List.append_nil] at h
  show (match RaySer.parseVal ((RaySer.reprChars v).length + 1)
      (RaySer.reprChars v) with
    | .error e => Except.error e
    | .ok (w, []) => Except.ok w
    | .ok (_, _ :: _) => Except.error PyErr.syntaxError) = Except.ok v
  rw [h]

/-- Elementwise serializability from membership. -/
theorem is_argL_mem (xs : List PyVal)
    (h : RaySer.is_argument_serializableL xs = true) :
    ∀ x ∈ xs, RaySer.is_argument_serializable x = true := by
  induction xs with
  | nil =>
    intro x hx
    cases hx
  | cons y ys ih =>
    obtain ⟨h1, h2⟩ := is_argL_cons y ys h
    intro x hx
    rcases List.mem_cons.mp hx with rfl | hx
    · exact h1
    · exact ih h2 x hx

/-- Entrywise serializability from membership. -/
theorem is_argP_mem (d : List (PyVal × PyVal))
    (h : RaySer.is_argument_serializableP d = true) :
    ∀ p ∈ d, RaySer.is_argument_serializable p.1 = true ∧
      RaySer.is_argument_serializable p.2 = true := by
  induction d with
  | nil =>
    intro p hp
    cases hp
  | cons q qs ih =>
    obtain ⟨k, v⟩ := q
    obtain ⟨h1, h2, h3⟩ := is_argP_cons k v qs h
    intro p hp
    rcases List.mem_cons.mp hp with rfl | hp
    · exact ⟨h1, h2⟩
    · exact ih h3 p hp

/-- Elementwise serializability implies the list predicate. -/
theorem is_argL_of_forall (xs : List PyVal)
    (h : ∀ x ∈ xs, RaySer.is_argument_serializable x = true) :
    RaySer.is_argument_serializableL xs = true := by
  induction xs with
  | nil => simp [RaySer.is_argument_serializableL]
  | cons y ys ih =>
    simp only [RaySer.is_argument_serializableL, Bool.and_eq_true]
    exact ⟨h y (by simp), ih (fun x hx => h x (by simp [hx]))⟩

/-- Entrywise serializability implies the pair predicate. -/
theorem is_argP_of_forall (d : List (PyVal × PyVal))
    (h1 : ∀ p ∈ d, RaySer.is_argument_serializable p.1 = true)
    (h2 : ∀ p ∈ d, RaySer.is_argument_serializable p.2 = true) :
    RaySer.is_argument_serializableP d = true := by
  induction d with
  | nil => simp [RaySer.is_argument_serializableP]
  | cons q qs ih =>
    obtain ⟨k, v⟩ := q
    simp only [RaySer.is_argument_serializableP, Bool.and_eq_true]
    exact ⟨⟨h1 (k, v) (by simp), h2 (k, v) (by simp)⟩,
      ih (fun p hp => h1 p (by simp [hp]))
        (fun p hp => h2 p (by simp [hp]))⟩

/-- The spec-worded characterisation implies the code's predicate. -/
theorem is_arg_of_serComp (v : PyVal)
    (h : RaySer.SerializableComposition v) :
    RaySer.is_argument_serializable v = true := by
  induction h with
  | int n => simp [RaySer.is_argument_serializable]
  | float fl => simp [RaySer.is_argument_serializable]
  | long n => simp [RaySer.is_argument_serializable]
  | bool b => simp [RaySer.is_argument_serializable]
  | none => simp [RaySer.is_argument_serializable]
  | str s hs => simp [RaySer.is_argument_serializable, hs]
  | unicode s hs => simp [RaySer.is_argument_serializable, hs]
  | list xs hlen hmem ih =>
    simp only [RaySer.is_argument_serializable]
    rw [if_pos hlen]
    exact is_argL_of_forall xs ih
  | tuple xs hlen hmem ih =>
    simp only [RaySer.is_argument_serializable]
    rw [if_pos hlen]
    exact is_argL_of_forall xs ih
  | dict d hlen hk hv ihk ihv =>
    simp only [RaySer.is_argument_serializable]
    rw [if_pos hlen]
    exact is_argP_of_forall d ihk ihv

/-- The code's predicate implies the spec-worded characterisation,
by strong induction on the size of the value. -/
theorem serComp_of_is_arg_aux (n : Nat) :
    ∀ v : PyVal, sizeOf v ≤ n →
      RaySer.is_argument_serializable v = true →
      RaySer.SerializableComposition v := by
  induction n with
  | zero =>
    intro v hv _
    cases v <;> simp at hv <;> omega
  | succ n ih =>
    intro v hv hser
    cases v with
    | none => exact .none
    | pybool b => exact .bool b
    | int m => exact .int m
    | long m => exact .long m
    | float fl => exact .float fl
    | str s =>
      refine .str s ?_
      simpa [RaySer.is_argument_serializable] using hser
    | unicode s =>
      refine .unicode s ?_
      simpa [RaySer.is_argument_serializable] using hser
    | list xs =>
      obtain ⟨h100, hL⟩ := is_arg_list_elim xs hser
      refine .list xs h100 ?_
      intro x hx
      have h1 := List.sizeOf_lt_of_mem hx
      have h2 : sizeOf (PyVal.list xs) = 1 + sizeOf xs := by simp
      exact ih x (by omega) (is_argL_mem xs hL x hx)
    | tuple xs =>
      obtain ⟨h100, hL⟩ := is_arg_tuple_elim xs hser
      refine .tuple xs h100 ?_
      intro x hx
      have h1 := List.sizeOf_lt_of_mem hx
      have h2 : sizeOf (PyVal.tuple xs) = 1 + sizeOf xs := by simp
      exact ih x (by omega) (is_argL_mem xs hL x hx)
    | dict d =>
      obtain ⟨h100, hP⟩ := is_arg_dict_elim d hser
      refine .dict d h100 ?_ ?_
      · intro p hp
        obtain ⟨a, b⟩ := p
        have h1 := List.sizeOf_lt_of_mem hp
        have h2 : sizeOf (PyVal.dict d) = 1 + sizeOf d := by simp
        have h3 : sizeOf ((a, b) : PyVal × PyVal) =
            1 + sizeOf a + sizeOf b := by simp
        exact ih a (by omega) ((is_argP_mem d hP (a, b) hp).1)
      · intro p hp
        obtain ⟨a, b⟩ := p
        have h1 := List.sizeOf_lt_of_mem hp
        have h2 : sizeOf (PyVal.dict d) = 1 + sizeOf d := by simp
        have h3 : sizeOf ((a, b) : PyVal × PyVal) =
            1 + sizeOf a + sizeOf b := by simp
        exact ih b (by omega) ((is_argP_mem d hP (a, b) hp).2)
    | objref i => simp [RaySer.is_argument_serializable] at hser
    | instObj cid a => simp [RaySer.is_argument_serializable] at hser
    | namedTup cid a => simp [RaySer.is_argument_serializable] at hser
    | ndarr dd tt => simp [RaySer.is_argument_serializable] at hser
    | csrM s1 d1 i1 p1 => simp [RaySer.is_argument_serializable] at hser
    | cooM s1 r1 c1 d1 => simp [RaySer.is_argument_serializable] at hser
    | pickled w => simp [RaySer.is_argument_serializable] at hser

/-- `is_argument_serializable` accepts exactly the compositions of
primitives described by the claim. -/
theorem serComp_iff_is_arg (v : PyVal) :
    RaySer.SerializableComposition v ↔
      RaySer.is_argument_serializable v = true :=
  ⟨is_arg_of_serComp v,
    fun h => serComp_of_is_arg_aux (sizeOf v) v le_rfl h⟩

/-- C9: COUNTEREXAMPLE — the non-finite float `inf` is accepted by
`serialize_argument_if_possible` (every float passes
`is_argument_serializable`, and its `repr` is the three-character
string "inf"), but `deserialize_argument` of that string fails:
`eval("inf")` raises a `NameError` because `inf` is not a literal and
not a bound name.  So there is a value for which serialization returns
a string whose deserialization does not return a value equal to it,
refuting the claim's round-trip part as stated. -/
theorem c9_inf_repr_not_evaluable :
    RaySer.serialize_argument_if_possible (PyVal.float PyFloat.inf) =
      Option.some (String.mk ['i', 'n', 'f']) ∧
    RaySer.deserialize_argument (String.mk ['i', 'n', 'f']) =
      Except.error (PyErr.nameError "inf") := by
  constructor
  · have hg : RaySer.is_argument_serializable (PyVal.float PyFloat.inf) =
        true := by
      simp [RaySer.is_argument_serializable]
    have hr : RaySer.reprChars (PyVal.float PyFloat.inf) =
        ['i', 'n', 'f'] := by
      simp [RaySer.reprChars, RaySer.printFloat]
    have hlen : ¬(String.mk ['i', 'n', 'f']).length > 1000 := by decide
    simp [RaySer.serialize_argument_if_possible, hg, hr, hlen]
  · rfl

/-- C9 (amended): `serialize_argument_if_possible` returns a string
exactly on the values described by the claim — compositions of
`int`/`float`/`long`/`bool`/`None` under lists, tuples, dicts and
strings each of at most 100 entries, whose `repr` takes at most 1000
characters — and the returned string is that `repr`; and for every such
value all of whose floats are FINITE, `deserialize_argument` maps the
returned string back to the value itself.  The finiteness proviso
amends the claim: it is necessary because `repr` prints non-finite
floats as the bare names `inf`/`-inf`/`nan`, which `eval` cannot read
back (see the counterexample). -/
theorem c9_serialize_roundtrip_characterised (v : PyVal) (s : String) :
    (RaySer.serialize_argument_if_possible v = Option.some s ↔
      (RaySer.SerializableComposition v ∧
        (String.mk (RaySer.reprChars v)).length ≤ 1000 ∧
        s = String.mk (RaySer.reprChars v))) ∧
    (RaySer.serialize_argument_if_possible v = Option.some s →
      RaySer.finiteFloats v = true →
      RaySer.deserialize_argument s = Except.ok v) := by
  have hmain : RaySer.serialize_argument_if_possible v = Option.some s ↔
      (RaySer.is_argument_serializable v = true ∧
        (String.mk (RaySer.reprChars v)).length ≤ 1000 ∧
        s = String.mk (RaySer.reprChars v)) := by
    by_cases hg : RaySer.is_argument_serializable v = true
    · by_cases hl : (String.mk (RaySer.reprChars v)).length > 1000
      · simp only [RaySer.serialize_argument_if_possible]
        rw [if_neg (by simp [hg]), if_pos hl]
        constructor
        · intro h
          simp at h
        · intro h
          obtain ⟨_, h2, _⟩ := h
          omega
      · simp only [RaySer.serialize_argument_if_possible]
        rw [if_neg (by simp [hg]), if_neg hl]
        constructor
        · intro h
          injection h with h
          exact ⟨hg, by omega, h.symm⟩
        · intro h
          obtain ⟨_, _, h3⟩ := h
          rw [h3]
    · simp only [RaySer.serialize_argument_if_possible]
      rw [if_pos (by simp [hg])]
      constructor
      · intro h
        simp at h
      · intro h
        exact absurd h.1 hg
  constructor
  · rw [hmain, serComp_iff_is_arg]
  · intro hsome hfin
    obtain ⟨hg, hl, rfl⟩ := hmain.mp hsome
    exact deserialize_repr v hg hfin

/-- C9 witness: at the concrete value `None`, serialization returns the
string "None" and deserialization reads it back to `None`. -/
theorem c9_serialize_roundtrip_witness :
    RaySer.deserialize_argument (String.mk ['N', 'o', 'n', 'e']) =
      Except.ok PyVal.none :=
  (c9_serialize_roundtrip_characterised PyVal.none
      (String.mk ['N', 'o', 'n', 'e'])).2
    (by
      have hg : RaySer.is_argument_serializable PyVal.none = true := by
        simp [RaySer.is_argument_serializable]
      have hr : RaySer.reprChars PyVal.none = ['N', 'o', 'n', 'e'] := by
        simp [RaySer.reprChars]
      have hlen : ¬(String.mk ['N', 'o', 'n', 'e']).length > 1000 := by
        decide
      simp [RaySer.serialize_argument_if_possible, hg, hr, hlen])
    (by simp [RaySer.finiteFloats])

end RayLegacy
